import Mathlib

/-!
# Verification of the STM32-for-VSCode Makefile generator / extractor core

This development embeds the core of the repository — the Makefile generator
(`src/CreateMakefile.ts`), the file-classification helper (`sortFiles`), and the
Makefile extraction rules — as executable Lean definitions, and proves the
specified properties about them.

Strings are modelled as Lean `String` (a wrapper around `List Char`); the
JavaScript default string comparison used by `Array.prototype.sort()` is
modelled as lexicographic comparison of the character sequences.
-/

namespace Stm32

/-! ## Lexicographic string order (JavaScript `Array.prototype.sort()` default) -/

/-- Boolean lexicographic less-or-equal on character lists, by code point. -/
def lexLe : List Char → List Char → Bool
  | [], _ => true
  | _ :: _, [] => false
  | a :: as, b :: bs =>
    if a.toNat < b.toNat then true
    else if a.toNat = b.toNat then lexLe as bs
    else false

/-- The order relation used to model the JavaScript default string sort. -/
def strLe (a b : String) : Prop := lexLe a.data b.data = true

instance : DecidableRel strLe := fun a b => by unfold strLe; infer_instance

theorem lexLe_cons_self (a : Char) (as bs : List Char) :
    lexLe (a :: as) (a :: bs) = lexLe as bs := by
  simp [lexLe]

theorem lexLe_cons_lt {a b : Char} (as bs : List Char) (h : a.toNat < b.toNat) :
    lexLe (a :: as) (b :: bs) = true := by
  simp [lexLe, h]

theorem lexLe_cons_gt {a b : Char} (as bs : List Char) (h : b.toNat < a.toNat) :
    lexLe (a :: as) (b :: bs) = false := by
  simp [lexLe, Nat.lt_asymm h, ne_of_gt h]

theorem lexLe_total : ∀ a b : List Char, lexLe a b = true ∨ lexLe b a = true
  | [], _ => Or.inl rfl
  | _ :: _, [] => Or.inr rfl
  | a :: as, b :: bs => by
    rcases Nat.lt_trichotomy a.toNat b.toNat with h | h | h
    · exact Or.inl (lexLe_cons_lt as bs h)
    · have ha : a = b := Char.ext (UInt32.ext h)
      subst ha
      rw [lexLe_cons_self, lexLe_cons_self]
      exact lexLe_total as bs
    · exact Or.inr (lexLe_cons_lt bs as h)

theorem lexLe_antisymm : ∀ a b : List Char,
    lexLe a b = true → lexLe b a = true → a = b
  | [], [], _, _ => rfl
  | [], _ :: _, _, hba => by simp [lexLe] at hba
  | _ :: _, [], hab, _ => by simp [lexLe] at hab
  | a :: as, b :: bs, hab, hba => by
    rcases Nat.lt_trichotomy a.toNat b.toNat with h | h | h
    · rw [lexLe_cons_gt bs as h] at hba
      exact absurd hba (by simp)
    · have ha : a = b := Char.ext (UInt32.ext h)
      subst ha
      rw [lexLe_cons_self] at hab hba
      exact congrArg₂ List.cons rfl (lexLe_antisymm as bs hab hba)
    · rw [lexLe_cons_gt as bs h] at hab
      exact absurd hab (by simp)

theorem lexLe_trans : ∀ a b c : List Char,
    lexLe a b = true → lexLe b c = true → lexLe a c = true
  | [], _, _, _, _ => rfl
  | _ :: _, [], _, hab, _ => by simp [lexLe] at hab
  | _ :: _, _ :: _, [], _, hbc => by simp [lexLe] at hbc
  | a :: as, b :: bs, c :: cs, hab, hbc => by
    rcases Nat.lt_trichotomy a.toNat b.toNat with h1 | h1 | h1
    · rcases Nat.lt_trichotomy b.toNat c.toNat with h2 | h2 | h2
      · exact lexLe_cons_lt as cs (Nat.lt_trans h1 h2)
      · exact lexLe_cons_lt as cs (h2 ▸ h1)
      · rw [lexLe_cons_gt bs cs h2] at hbc
        exact absurd hbc (by simp)
    · have ha : a = b := Char.ext (UInt32.ext h1)
      subst ha
      rw [lexLe_cons_self] at hab
      rcases Nat.lt_trichotomy a.toNat c.toNat with h2 | h2 | h2
      · exact lexLe_cons_lt as cs h2
      · have hc : a = c := Char.ext (UInt32.ext h2)
        subst hc
        rw [lexLe_cons_self] at hbc ⊢
        exact lexLe_trans as bs cs hab hbc
      · rw [lexLe_cons_gt bs cs h2] at hbc
        exact absurd hbc (by simp)
    · rw [lexLe_cons_gt as bs h1] at hab
      exact absurd hab (by simp)

instance : IsTotal String strLe := ⟨fun a b => lexLe_total a.data b.data⟩

instance : IsTrans String strLe := ⟨fun a b c => lexLe_trans a.data b.data c.data⟩

instance : IsAntisymm String strLe :=
  ⟨fun a b h1 h2 => String.ext (lexLe_antisymm a.data b.data h1 h2)⟩

/-- Sorting as performed by the JavaScript `Array.prototype.sort()` default
comparator on these ASCII path/flag strings. -/
def sortStr (l : List String) : List String := List.insertionSort strLe l

theorem sortStr_perm (l : List String) : List.Perm (sortStr l) l :=
  List.perm_insertionSort strLe l

theorem sortStr_sorted (l : List String) : List.Sorted strLe (sortStr l) :=
  List.sorted_insertionSort strLe l

theorem mem_sortStr {a : String} {l : List String} : a ∈ sortStr l ↔ a ∈ l :=
  (sortStr_perm l).mem_iff

/-! ## First-occurrence deduplication (lodash `uniq`) -/

/-- Helper for `uniqFirst`: keeps entries not yet seen. -/
def uniqFirstAux (seen : List String) : List String → List String
  | [] => []
  | x :: xs => if x ∈ seen then uniqFirstAux seen xs else x :: uniqFirstAux (x :: seen) xs

/-- First-occurrence-preserving deduplication, as lodash `uniq` does. -/
def uniqFirst (l : List String) : List String := uniqFirstAux [] l

theorem mem_uniqFirstAux : ∀ (l : List String) (seen : List String) (a : String),
    a ∈ uniqFirstAux seen l ↔ a ∈ l ∧ a ∉ seen
  | [], seen, a => by simp [uniqFirstAux]
  | x :: xs, seen, a => by
    by_cases hx : x ∈ seen
    · simp only [uniqFirstAux, if_pos hx, mem_uniqFirstAux xs seen a, List.mem_cons]
      constructor
      · exact fun ⟨h1, h2⟩ => ⟨Or.inr h1, h2⟩
      · exact fun ⟨h1, h2⟩ => ⟨h1.resolve_left (fun hax => absurd (hax ▸ hx) h2), h2⟩
    · simp only [uniqFirstAux, if_neg hx, List.mem_cons,
        mem_uniqFirstAux xs (x :: seen) a]
      by_cases hax : a = x
      · subst hax
        simp [hx]
      · simp [hax]

theorem mem_uniqFirst {a : String} {l : List String} : a ∈ uniqFirst l ↔ a ∈ l := by
  simp [uniqFirst, mem_uniqFirstAux]

theorem nodup_uniqFirstAux : ∀ (l : List String) (seen : List String),
    (uniqFirstAux seen l).Nodup
  | [], _ => List.nodup_nil
  | x :: xs, seen => by
    by_cases hx : x ∈ seen
    · simpa [uniqFirstAux, if_pos hx] using nodup_uniqFirstAux xs seen
    · simp only [uniqFirstAux, if_neg hx, List.nodup_cons]
      refine ⟨fun hmem => ?_, nodup_uniqFirstAux xs (x :: seen)⟩
      exact ((mem_uniqFirstAux xs (x :: seen) x).mp hmem).2 (List.mem_cons_self x seen)

theorem nodup_uniqFirst (l : List String) : (uniqFirst l).Nodup := nodup_uniqFirstAux l []

/-- The sorted deduplication of a list is invariant under permutation of the input. -/
theorem sortStr_uniqFirst_eq_of_perm {l l' : List String} (h : List.Perm l l') :
    sortStr (uniqFirst l) = sortStr (uniqFirst l') := by
  refine List.eq_of_perm_of_sorted ?_ (sortStr_sorted _) (sortStr_sorted _)
  refine (sortStr_perm _).trans (List.Perm.trans ?_ (sortStr_perm _).symm)
  refine (List.perm_ext_iff_of_nodup (nodup_uniqFirst l) (nodup_uniqFirst l')).mpr ?_
  intro a
  rw [mem_uniqFirst, mem_uniqFirst]
  exact ⟨fun ha => h.mem_iff.mp ha, fun ha => h.mem_iff.mpr ha⟩

/-! ## Elementary string facts -/

theorem str_append_data (s t : String) : s ++ t = String.mk (s.data ++ t.data) := by
  cases s; cases t; rfl

theorem str_append_assoc (s t u : String) : (s ++ t) ++ u = s ++ (t ++ u) := by
  apply String.ext
  simp [String.data_append, List.append_assoc]

theorem str_empty_append (s : String) : "" ++ s = s := by
  apply String.ext
  simp [String.data_append]

theorem str_append_empty (s : String) : s ++ "" = s := by
  apply String.ext
  simp [String.data_append]

theorem str_eq_empty_iff (s : String) : s = "" ↔ s.data = [] :=
  ⟨fun h => h ▸ rfl, fun h => String.ext h⟩

/-- Concatenation of a list of strings. -/
def strConcat : List String → String
  | [] => ""
  | s :: rest => s ++ strConcat rest

/-! ## Prefix and substring tests -/

/-- `leadsWith pat l` holds when `pat` is a leading segment of `l`. -/
def leadsWith : List Char → List Char → Bool
  | [], _ => true
  | _ :: _, [] => false
  | p :: ps, c :: cs => p == c && leadsWith ps cs

/-- `hasSub pat l` models JavaScript `l.indexOf(pat) >= 0`: `pat` occurs
contiguously somewhere inside `l`. -/
def hasSub (pat : List Char) : List Char → Bool
  | [] => pat.isEmpty
  | c :: cs => leadsWith pat (c :: cs) || hasSub pat cs

/-- `strContains s pat` models JavaScript `s.indexOf(pat) >= 0`. -/
def strContains (s pat : String) : Bool := hasSub pat.data s.data

theorem leadsWith_self_append : ∀ (p rest : List Char), leadsWith p (p ++ rest) = true
  | [], _ => rfl
  | a :: ps, rest => by
    have ih := leadsWith_self_append ps rest
    simp only [List.cons_append, leadsWith, beq_self_eq_true, Bool.true_and]
    exact ih

theorem hasSub_of_leadsWith {pat s : List Char} (h : leadsWith pat s = true) :
    hasSub pat s = true := by
  cases s with
  | nil =>
    cases pat with
    | nil => rfl
    | cons p ps => simp [leadsWith] at h
  | cons c cs => simp [hasSub, h]

theorem hasSub_append_left (p rest : List Char) : hasSub p (p ++ rest) = true :=
  hasSub_of_leadsWith (leadsWith_self_append p rest)

theorem leadsWith_append_drop : ∀ (p l : List Char), leadsWith p l = true →
    l = p ++ l.drop p.length
  | [], _, _ => rfl
  | p :: ps, [], h => by simp [leadsWith] at h
  | p :: ps, c :: cs, h => by
    simp only [leadsWith, Bool.and_eq_true, beq_iff_eq] at h
    obtain ⟨rfl, h2⟩ := h
    simpa [List.cons_append] using leadsWith_append_drop ps cs h2

/-! ## `createStringList` and `createSingleLineStringList` (CreateMakefile.ts) -/

/-- The per-entry rendering loop of `createStringList`: one `prefix + entry` per
line, a ` \` continuation marker on every line but the last, a `\n` terminating
every line. -/
def renderLines (pfx : String) : List String → String
  | [] => ""
  | [e] => pfx ++ e ++ "\n"
  | e :: f :: rest => pfx ++ e ++ " \\" ++ "\n" ++ renderLines pfx (f :: rest)

/-- Embeds `createStringList` (CreateMakefile.ts, lines 45-60): deduplicate with
lodash `uniq`, sort with the default comparator, then emit one line per entry.
An absent or empty prefix contributes nothing to each line. -/
def createStringList (arr : List String) (pfx : Option String) : String :=
  renderLines (pfx.getD "") (sortStr (uniqFirst arr))

/-- Embeds `createSingleLineStringList` (CreateMakefile.ts, lines 66-76):
deduplicate, sort, then emit `prefix + entry + " "` for every entry on a single
line. -/
def createSingleLineStringList (arr : List String) (pfx : Option String) : String :=
  strConcat ((sortStr (uniqFirst arr)).map (fun e => pfx.getD "" ++ e ++ " "))

theorem renderLines_decomp (pfx : String) : ∀ (ini : List String) (lastE : String),
    renderLines pfx (ini ++ [lastE]) =
      strConcat (ini.map (fun e => pfx ++ e ++ " \\" ++ "\n")) ++ (pfx ++ lastE ++ "\n")
  | [], lastE => by
    simp only [List.nil_append, renderLines, List.map_nil, strConcat]
    rw [str_empty_append]
  | e :: ini, lastE => by
    have ih := renderLines_decomp pfx ini lastE
    cases ini with
    | nil =>
      simp only [List.cons_append, List.nil_append, renderLines, List.map_cons,
        List.map_nil, strConcat, str_append_assoc, str_append_empty,
        str_empty_append]
    | cons f ini' =>
      simp only [List.cons_append] at ih ⊢
      simp only [renderLines, List.map_cons, strConcat, str_append_assoc] at ih ⊢
      rw [ih]

/-- C4: `createStringList` deduplicates, sorts ascending, emits one
`prefix + entry` line per entry with a ` \` continuation marker on every line
except the last and a terminating newline on every line including the last, and
returns `""` on empty input (no dangling continuation). -/
theorem createStringList_spec (arr : List String) (p : Option String) :
    (sortStr (uniqFirst arr)).Nodup ∧
    List.Sorted strLe (sortStr (uniqFirst arr)) ∧
    (∀ x, x ∈ sortStr (uniqFirst arr) ↔ x ∈ arr) ∧
    (arr = [] → createStringList arr p = "") ∧
    (∀ (ini : List String) (lastE : String), sortStr (uniqFirst arr) = ini ++ [lastE] →
      createStringList arr p =
        strConcat (ini.map (fun e => p.getD "" ++ e ++ " \\" ++ "\n")) ++
          (p.getD "" ++ lastE ++ "\n")) := by
  refine ⟨(sortStr_perm _).nodup_iff.mpr (nodup_uniqFirst arr), sortStr_sorted _,
    fun x => mem_sortStr.trans mem_uniqFirst, ?_, ?_⟩
  · rintro rfl; rfl
  · intro ini lastE h
    unfold createStringList
    rw [h]
    exact renderLines_decomp (p.getD "") ini lastE

/-- Witness for C4 at a concrete input. -/
theorem createStringList_spec_witness :
    createStringList ["b", "a", "b"] (some "-D") = "-Da \\\n-Db\n" ∧
    createStringList [] (some "-D") = "" := by
  have h := (createStringList_spec ["b", "a", "b"] (some "-D")).2.2.2.2
    ["a"] "b" (by decide)
  have h2 := (createStringList_spec [] (some "-D")).2.2.2.1 rfl
  refine ⟨?_, h2⟩
  rw [h]
  decide

/-- C5: both formatters are invariant under permutation of the input (duplicates
allowed), and re-invocation on the same input trivially yields the same text
(the embedded formatters are pure functions, so repeated application is
deterministic). -/
theorem formatters_perm_invariant (l l' : List String) (p : Option String)
    (h : List.Perm l l') :
    createStringList l p = createStringList l' p ∧
    createSingleLineStringList l p = createSingleLineStringList l' p ∧
    createStringList l p = createStringList l p ∧
    createSingleLineStringList l p = createSingleLineStringList l p := by
  refine ⟨?_, ?_, rfl, rfl⟩
  · unfold createStringList
    rw [sortStr_uniqFirst_eq_of_perm h]
  · unfold createSingleLineStringList
    rw [sortStr_uniqFirst_eq_of_perm h]

/-- Witness for C5 at a concrete permutation pair (with a duplicate entry). -/
theorem formatters_perm_invariant_witness :
    List.Perm (["b", "a", "b"] : List String) ["b", "b", "a"] ∧
    createStringList ["b", "a", "b"] (some "-I") =
      createStringList ["b", "b", "a"] (some "-I") ∧
    createSingleLineStringList ["b", "a", "b"] none =
      createSingleLineStringList ["b", "b", "a"] none := by
  have hp : List.Perm (["b", "a", "b"] : List String) ["b", "b", "a"] :=
    List.Perm.cons "b" (List.Perm.swap "b" "a" [])
  have h := formatters_perm_invariant ["b", "a", "b"] ["b", "b", "a"] (some "-I") hp
  have h2 := formatters_perm_invariant ["b", "a", "b"] ["b", "b", "a"] none hp
  exact ⟨hp, h.1, h2.2.1⟩

/-! ## `createPrefixWhenNoneExists` (CreateMakefile.ts) -/

/-- Embeds `createPrefixWhenNoneExists` (CreateMakefile.ts, lines 89-97):
empty input gives `""`; input already containing the prefix anywhere
(`indexOf(prefix) >= 0`) is returned unchanged; otherwise the prefix is
prepended. -/
def createPrefixWhenNoneExists (input pfx : String) : String :=
  if input = "" then ""
  else if strContains input pfx then input
  else pfx ++ input

/-- C6: the three-case behaviour of conditional prefixing, and its idempotence. -/
theorem createPrefixWhenNoneExists_spec (x p : String) :
    (x = "" → createPrefixWhenNoneExists x p = "") ∧
    (x ≠ "" → strContains x p = true → createPrefixWhenNoneExists x p = x) ∧
    (x ≠ "" → strContains x p = false → createPrefixWhenNoneExists x p = p ++ x) ∧
    createPrefixWhenNoneExists (createPrefixWhenNoneExists x p) p =
      createPrefixWhenNoneExists x p := by
  refine ⟨fun h => by simp [createPrefixWhenNoneExists, h],
    fun h1 h2 => by simp [createPrefixWhenNoneExists, h1, h2],
    fun h1 h2 => by simp [createPrefixWhenNoneExists, h1, h2], ?_⟩
  by_cases h1 : x = ""
  · simp [createPrefixWhenNoneExists, h1]
  · by_cases h2 : strContains x p = true
    · simp [createPrefixWhenNoneExists, h1, h2]
    · have hx : createPrefixWhenNoneExists x p = p ++ x := by
        simp [createPrefixWhenNoneExists, h1, h2]
      rw [hx]
      have hne : p ++ x ≠ "" := by
        intro hc
        have hd := (str_eq_empty_iff _).mp hc
        rw [String.data_append] at hd
        exact h1 ((str_eq_empty_iff x).mpr (List.append_eq_nil.mp hd).2)
      have hcont : strContains (p ++ x) p = true := by
        unfold strContains
        rw [String.data_append]
        exact hasSub_append_left p.data x.data
      simp [createPrefixWhenNoneExists, hne, hcont]

/-! ## File classification: `sortFiles` (Helpers/part_000) -/

/-- Split a character list at every occurrence of `sep`, as JavaScript
`String.prototype.split` does (never returns an empty list of segments). -/
def splitOnChar (sep : Char) : List Char → List (List Char)
  | [] => [[]]
  | c :: cs =>
    if c = sep then [] :: splitOnChar sep cs
    else match splitOnChar sep cs with
      | [] => [[c]]
      | l :: ls => (c :: l) :: ls

/-- The classification key of `sortFiles`: `_.toLower(entry.split('.').pop())`,
the lowercased final dot-separated segment of the path. -/
def extOf (e : String) : String :=
  String.mk (((splitOnChar '.' e.data).getLastD []).map Char.toLower)

/-- Node's `path.posix.dirname`: scan backwards from the end (excluding index 0)
skipping trailing slashes, to the separator before the last component; `"."`
when there is no directory part, `"/"` (or `"//"`) for root-anchored paths. -/
def posixDirname (p : String) : String :=
  match p.data with
  | [] => "."
  | c0 :: rest =>
    let rev1 := rest.reverse.dropWhile (· = '/')
    let rev2 := rev1.dropWhile (· ≠ '/')
    match rev2 with
    | [] => if c0 = '/' then "/" else "."
    | _ :: restRev =>
      if c0 = '/' ∧ restRev = [] then "//"
      else String.mk (c0 :: restRev.reverse)

/-- Modelled from the spec (§3): the `BuildFiles` class of `types/MakeInfo.ts`
(not under `src/`) is the four-bucket container, constructed empty. -/
structure BuildFiles where
  cSources : List String := []
  cxxSources : List String := []
  assemblySources : List String := []
  libraryDirectories : List String := []

/-- One step of the classification pass of `sortFiles` (part_000, lines
114-139): dispatch on the lowercased final extension; `h`/`hpp` are dropped
(the branch is an explicit no-op in the source), and for `a` the entry's
`path.dirname` is pushed instead of the entry itself. -/
def classifyOne (output : BuildFiles) (entry : String) : BuildFiles :=
  let ext := extOf entry
  if ext == "cpp" || ext == "cxx" || ext == "cc" then
    { output with cxxSources := output.cxxSources ++ [entry] }
  else if ext == "c" then
    { output with cSources := output.cSources ++ [entry] }
  else if ext == "h" || ext == "hpp" then
    output
  else if ext == "s" then
    { output with assemblySources := output.assemblySources ++ [entry] }
  else if ext == "a" then
    { output with libraryDirectories := output.libraryDirectories ++ [posixDirname entry] }
  else
    output

/-- Embeds `sortFiles` (part_000, lines 114-139). NOTE (final lodash loop):
`_.set(entry, key, _.uniq(entry))` writes the deduplicated copy onto a property
of the array `entry` itself, not back onto `output`, so the deduplicated copy is
discarded; the only effect on the returned object is the in-place
`entry.sort()`. The embedding therefore sorts each bucket without removing
duplicates, matching the code's actual behaviour. -/
def sortFiles (list : List String) : BuildFiles :=
  let output := list.foldl classifyOne {}
  { cSources := sortStr output.cSources,
    cxxSources := sortStr output.cxxSources,
    assemblySources := sortStr output.assemblySources,
    libraryDirectories := sortStr output.libraryDirectories }

theorem classify_foldl (l : List String) : ∀ acc : BuildFiles,
    (l.foldl classifyOne acc).cSources =
      acc.cSources ++ l.filter (fun e => extOf e == "c") ∧
    (l.foldl classifyOne acc).cxxSources =
      acc.cxxSources ++
        l.filter (fun e => extOf e == "cpp" || extOf e == "cxx" || extOf e == "cc") ∧
    (l.foldl classifyOne acc).assemblySources =
      acc.assemblySources ++ l.filter (fun e => extOf e == "s") ∧
    (l.foldl classifyOne acc).libraryDirectories =
      acc.libraryDirectories ++
        (l.filter (fun e => extOf e == "a")).map posixDirname := by
  induction l with
  | nil => intro acc; simp
  | cons x xs ih =>
    intro acc
    have hstep := ih (classifyOne acc x)
    by_cases h1 : (extOf x == "cpp" || extOf x == "cxx" || extOf x == "cc") = true
    · have hcc : (extOf x == "c") = false := by
        rcases Bool.or_eq_true_iff.mp h1 with h | h
        · rcases Bool.or_eq_true_iff.mp h with h | h <;>
            simp [beq_iff_eq.mp h]
        · simp [beq_iff_eq.mp h]
      have hs : (extOf x == "s") = false := by
        rcases Bool.or_eq_true_iff.mp h1 with h | h
        · rcases Bool.or_eq_true_iff.mp h with h | h <;>
            simp [beq_iff_eq.mp h]
        · simp [beq_iff_eq.mp h]
      have ha : (extOf x == "a") = false := by
        rcases Bool.or_eq_true_iff.mp h1 with h | h
        · rcases Bool.or_eq_true_iff.mp h with h | h <;>
            simp [beq_iff_eq.mp h]
        · simp [beq_iff_eq.mp h]
      have hcls : classifyOne acc x =
          { acc with cxxSources := acc.cxxSources ++ [x] } := by
        simp [classifyOne, h1]
      rw [List.foldl_cons] at *
      rw [hcls] at hstep ⊢
      simpa [List.filter_cons, h1, hcc, hs, ha, List.append_assoc] using hstep
    · by_cases h2 : (extOf x == "c") = true
      · have hcls : classifyOne acc x =
            { acc with cSources := acc.cSources ++ [x] } := by
          simp [classifyOne, h1, h2]
        rw [List.foldl_cons] at *
        have hh : (extOf x == "h" || extOf x == "hpp") = false := by
          simp only [Bool.or_eq_false_iff]
          constructor <;> simp [beq_iff_eq.mp h2]
        have hs : (extOf x == "s") = false := by simp [beq_iff_eq.mp h2]
        have ha : (extOf x == "a") = false := by simp [beq_iff_eq.mp h2]
        rw [hcls] at hstep ⊢
        simpa [List.filter_cons, h1, h2, hh, hs, ha, List.append_assoc] using hstep
      · by_cases h3 : (extOf x == "h" || extOf x == "hpp") = true
        · have hcls : classifyOne acc x = acc := by
            simp [classifyOne, h1, h2, h3]
          rw [List.foldl_cons] at *
          have hs : (extOf x == "s") = false := by
            rcases Bool.or_eq_true_iff.mp h3 with h | h <;>
              simp [beq_iff_eq.mp h]
          have ha : (extOf x == "a") = false := by
            rcases Bool.or_eq_true_iff.mp h3 with h | h <;>
              simp [beq_iff_eq.mp h]
          rw [hcls] at hstep ⊢
          simpa [List.filter_cons, h1, h2, hs, ha] using hstep
        · by_cases h4 : (extOf x == "s") = true
          · have hcls : classifyOne acc x =
                { acc with assemblySources := acc.assemblySources ++ [x] } := by
              simp [classifyOne, h1, h2, h3, h4]
            rw [List.foldl_cons] at *
            have ha : (extOf x == "a") = false := by simp [beq_iff_eq.mp h4]
            rw [hcls] at hstep ⊢
            simpa [List.filter_cons, h1, h2, h4, ha, List.append_assoc] using hstep
          · by_cases h5 : (extOf x == "a") = true
            · have hcls : classifyOne acc x =
                  { acc with libraryDirectories :=
                      acc.libraryDirectories ++ [posixDirname x] } := by
                simp [classifyOne, h1, h2, h3, h4, h5]
              rw [List.foldl_cons] at *
              rw [hcls] at hstep ⊢
              simpa [List.filter_cons, h1, h2, h4, h5, List.append_assoc] using hstep
            · have hcls : classifyOne acc x = acc := by
                simp [classifyOne, h1, h2, h3, h4, h5]
              rw [List.foldl_cons] at *
              rw [hcls] at hstep ⊢
              simpa [List.filter_cons, h1, h2, h4, h5] using hstep

/-- C9: `sortFiles` buckets each entry by its lowercased final extension:
`c` to `cSources`; `cpp`, `cxx`, `cc` to `cxxSources`; `s` to
`assemblySources`; for `a` the entry's parent directory (not the entry) to
`libraryDirectories`; all other extensions, including `h` and `hpp`, reach no
bucket. -/
theorem sortFiles_classification (l : List String) :
    (sortFiles l).cSources = sortStr (l.filter (fun e => extOf e == "c")) ∧
    (sortFiles l).cxxSources =
      sortStr (l.filter (fun e => extOf e == "cpp" || extOf e == "cxx" || extOf e == "cc")) ∧
    (sortFiles l).assemblySources = sortStr (l.filter (fun e => extOf e == "s")) ∧
    (sortFiles l).libraryDirectories =
      sortStr ((l.filter (fun e => extOf e == "a")).map posixDirname) ∧
    (∀ e ∈ l, (extOf e = "h" ∨ extOf e = "hpp") →
      e ∉ (sortFiles l).cSources ∧ e ∉ (sortFiles l).cxxSources ∧
        e ∉ (sortFiles l).assemblySources) := by
  have h := classify_foldl l {}
  have hc : (sortFiles l).cSources = sortStr (l.filter (fun e => extOf e == "c")) :=
    (rfl : (sortFiles l).cSources = sortStr ((l.foldl classifyOne {}).cSources)).trans
      (congrArg sortStr (h.1.trans (List.nil_append _)))
  have hcxx : (sortFiles l).cxxSources =
      sortStr (l.filter (fun e => extOf e == "cpp" || extOf e == "cxx" || extOf e == "cc")) :=
    (rfl : (sortFiles l).cxxSources =
        sortStr ((l.foldl classifyOne {}).cxxSources)).trans
      (congrArg sortStr (h.2.1.trans (List.nil_append _)))
  have hasm : (sortFiles l).assemblySources =
      sortStr (l.filter (fun e => extOf e == "s")) :=
    (rfl : (sortFiles l).assemblySources =
        sortStr ((l.foldl classifyOne {}).assemblySources)).trans
      (congrArg sortStr (h.2.2.1.trans (List.nil_append _)))
  have hlib : (sortFiles l).libraryDirectories =
      sortStr ((l.filter (fun e => extOf e == "a")).map posixDirname) :=
    (rfl : (sortFiles l).libraryDirectories =
        sortStr ((l.foldl classifyOne {}).libraryDirectories)).trans
      (congrArg sortStr (h.2.2.2.trans (List.nil_append _)))
  refine ⟨hc, hcxx, hasm, hlib, ?_⟩
  intro e _ hext
  have hne : ∀ s : String, extOf e = s → s ≠ "h" → s ≠ "hpp" → False := by
    rintro s rfl hs1 hs2
    rcases hext with h | h
    · exact hs1 h
    · exact hs2 h
  refine ⟨?_, ?_, ?_⟩
  · rw [hc]
    intro hmem
    have := (List.mem_filter.mp (mem_sortStr.mp hmem)).2
    rcases hext with h | h <;> simp [h] at this
  · rw [hcxx]
    intro hmem
    have := (List.mem_filter.mp (mem_sortStr.mp hmem)).2
    rcases hext with h | h <;> simp [h] at this
  · rw [hasm]
    intro hmem
    have := (List.mem_filter.mp (mem_sortStr.mp hmem)).2
    rcases hext with h | h <;> simp [h] at this

/-- Witness for C9 at a concrete file list. -/
theorem sortFiles_classification_witness :
    (sortFiles ["b.c", "a.C", "x.h", "lib/foo.a", "s.s", "t.cpp"]).cSources =
      ["a.C", "b.c"] ∧
    (sortFiles ["b.c", "a.C", "x.h", "lib/foo.a", "s.s", "t.cpp"]).libraryDirectories =
      ["lib"] ∧
    "x.h" ∉ (sortFiles ["b.c", "a.C", "x.h", "lib/foo.a", "s.s", "t.cpp"]).cSources := by
  have h := sortFiles_classification ["b.c", "a.C", "x.h", "lib/foo.a", "s.s", "t.cpp"]
  refine ⟨h.1.trans (by decide), h.2.2.2.1.trans (by decide), ?_⟩
  exact (h.2.2.2.2 "x.h" (by decide) (Or.inl (by decide))).1

/-- C2 (failing input): the final loop of `sortFiles` fails to deduplicate, so a
duplicated `.c` entry survives in the `cSources` bucket (only sorted), contrary
to the code's own comment `sort arrays and remove possible duplicates`. -/
theorem sortFiles_keeps_duplicates :
    (sortFiles ["Src/main.c", "Src/main.c"]).cSources =
      ["Src/main.c", "Src/main.c"] ∧
    ¬ (sortFiles ["Src/main.c", "Src/main.c"]).cSources.Nodup := by
  decide

/-- C2 (the part of the claim that does hold): every bucket of `sortFiles` is
sorted. -/
theorem sortFiles_buckets_sorted (l : List String) :
    List.Sorted strLe (sortFiles l).cSources ∧
    List.Sorted strLe (sortFiles l).cxxSources ∧
    List.Sorted strLe (sortFiles l).assemblySources ∧
    List.Sorted strLe (sortFiles l).libraryDirectories :=
  ⟨sortStr_sorted _, sortStr_sorted _, sortStr_sorted _, sortStr_sorted _⟩

/-! ## `MakeInfo` and `createGCCPathOutput` (CreateMakefile.ts) -/

/-- Modelled from the spec (§3): a custom Makefile rule triple
`{command, rule, dependsOn?}` (`types/MakeInfo.ts` is not under `src/`). -/
structure CustomRule where
  command : String
  rule : String
  dependsOn : Option String := none

/-- Modelled from the spec (§3): toolchain locations; `armToolchainPath` is
optional (`none` also covers the non-string case checked by `isString`). -/
structure ToolChain where
  armToolchainPath : Option String := none

/-- Modelled from the spec (§3): the canonical structured build description,
with exactly the fields the generator in `src/CreateMakefile.ts` reads
(`types/MakeInfo.ts` itself is not under `src/`). -/
structure MakeInfo where
  target : String := ""
  optimization : String := ""
  cpu : String := ""
  fpu : String := ""
  floatAbi : String := ""
  ldscript : String := ""
  targetMCU : String := ""
  cSources : List String := []
  cxxSources : List String := []
  asmSources : List String := []
  cIncludes : List String := []
  libs : List String := []
  libdir : List String := []
  cDefs : List String := []
  cxxDefs : List String := []
  asDefs : List String := []
  cFlags : List String := []
  cxxFlags : List String := []
  assemblyFlags : List String := []
  ldFlags : List String := []
  tools : ToolChain := {}
  customMakefileRules : Option (List CustomRule) := none

/-- Modelled from the spec: `fsPathToPosix` (Helpers.ts, not under `src/`)
converts a filesystem path to POSIX form, i.e. backslash separators become
forward slashes. -/
def fsPathToPosix (p : String) : String :=
  String.mk (p.data.map (fun c => if c = '\\' then '/' else c))

/-- Embeds `createGCCPathOutput` (CreateMakefile.ts, lines 78-85): the outer
guard is JavaScript truthiness (`""` is falsy) plus `isString`; the inner guard
re-checks truthiness, `!isEmpty`, and `!== "."`. Note the returned text opens a
double quote after `GCC_PATH=` and never closes it. -/
def createGCCPathOutput (mi : MakeInfo) : String :=
  match mi.tools.armToolchainPath with
  | some p =>
    if p ≠ "" then
      (if p ≠ "" ∧ p ≠ "." then "GCC_PATH=\"" ++ fsPathToPosix p else "")
    else ""
  | none => ""

/-- C10: `createGCCPathOutput` returns `""` when the toolchain path is absent
(or not a string), empty, or `"."`; otherwise it returns `GCC_PATH="` followed
by the POSIX-converted path, with the opening double quote left unclosed (the
output contains exactly one `"` when the path itself has none). -/
theorem createGCCPathOutput_spec (mi : MakeInfo) :
    (mi.tools.armToolchainPath = none → createGCCPathOutput mi = "") ∧
    (∀ p, mi.tools.armToolchainPath = some p → (p = "" ∨ p = ".") →
      createGCCPathOutput mi = "") ∧
    (∀ p, mi.tools.armToolchainPath = some p → p ≠ "" → p ≠ "." →
      createGCCPathOutput mi = "GCC_PATH=\"" ++ fsPathToPosix p ∧
      ('"' ∉ p.data → ((createGCCPathOutput mi).data.count '"') = 1)) := by
  refine ⟨fun h => by simp [createGCCPathOutput, h], ?_, ?_⟩
  · intro p hp hcase
    rcases hcase with rfl | rfl <;> simp [createGCCPathOutput, hp]
  · intro p hp h1 h2
    have hout : createGCCPathOutput mi = "GCC_PATH=\"" ++ fsPathToPosix p := by
      simp [createGCCPathOutput, hp, h1, h2]
    refine ⟨hout, fun hq => ?_⟩
    rw [hout, String.data_append, List.count_append]
    have hz : (fsPathToPosix p).data.count '"' = 0 := by
      rw [List.count_eq_zero]
      intro hmem
      unfold fsPathToPosix at hmem
      simp only [List.mem_map] at hmem
      obtain ⟨c, hc, hfc⟩ := hmem
      by_cases hb : c = '\\'
      · rw [if_pos hb] at hfc
        exact absurd hfc (by decide)
      · rw [if_neg hb] at hfc
        exact hq (hfc ▸ hc)
    rw [hz]
    decide

/-- Witness for C10 at concrete toolchain paths. -/
theorem createGCCPathOutput_spec_witness :
    createGCCPathOutput { tools := { armToolchainPath := some "C:\\tools" } } =
      "GCC_PATH=\"C:/tools" ∧
    createGCCPathOutput { tools := { armToolchainPath := some "." } } = "" ∧
    createGCCPathOutput { tools := { armToolchainPath := none } } = "" ∧
    (createGCCPathOutput
        { tools := { armToolchainPath := some "C:\\tools" } }).data.count '"' = 1 := by
  have h := (createGCCPathOutput_spec
    { tools := { armToolchainPath := some "C:\\tools" } }).2.2 "C:\\tools" rfl
    (by decide) (by decide)
  have h2 := (createGCCPathOutput_spec
    { tools := { armToolchainPath := some "." } }).2.1 "." rfl (Or.inr rfl)
  have h3 := (createGCCPathOutput_spec
    { tools := { armToolchainPath := none } }).1 rfl
  refine ⟨h.1.trans (by decide), h2, h3, h.2 (by decide)⟩

/-! ## The Makefile template: `createMakefile` (CreateMakefile.ts) -/

/-- Modelled from the spec: the fixed environment-file name constant
`STM32_ENVIRONMENT_FILE_NAME` (Definitions.ts, not under `src/`). -/
def envFileName : String := ".stm32env"

/-- Modelled from the spec: the fixed generated-makefile name constant
`makefileName` (Definitions.ts, not under `src/`). -/
def makefileNameConst : String := "STM32Make.make"

/-- One rendered block of `customMakefileRules` (CreateMakefile.ts, lines
104-125): banner with the command name, `command: dependsOn` target line
(`dependsOn` defaults to the empty string), and a tab-indented recipe line,
with the template's trailing three-tab line. -/
def customRuleBlock (r : CustomRule) : String :=
  "\n#######################################\n# " ++ r.command ++
    "\n#######################################\n" ++ r.command ++ ": " ++
    r.dependsOn.getD "" ++ "\n\t" ++ r.rule ++ "\n\t\t\t"

/-- Embeds `customMakefileRules` (CreateMakefile.ts): reduce over the rule
list starting from `""`, prepending `"\n\n"` before each block; `""` when the
field is absent. (A present-but-empty JavaScript array is truthy, so the empty
list also reduces to `""`.) -/
def customMakefileRulesString (mi : MakeInfo) : String :=
  match mi.customMakefileRules with
  | some rules =>
    rules.foldl (fun previousString currentValue =>
      previousString ++ "\n\n" ++ customRuleBlock currentValue) ""
  | none => ""

/-! The fixed text of the Makefile template (CreateMakefile.ts, lines 129-525),
split at the 21 `makeInfo`-dependent interpolation points. The `$\x7b'\\'\x7d`
interpolations of the TypeScript template literal are single backslash
characters in the output and are inlined into the chunks below; the two
filename constants are spliced via `envFileName` and `makefileNameConst`. -/

def seg0 : String :=
  "##########################################################################################################################\n# File automatically-generated by STM32forVSCode\n##########################################################################################################################\n\n# ------------------------------------------------\n# Makefile used by STM32 For VSCode\n# WARNING: This file can be overwritten when project settings change\n# This Makefile can be used for CI/CD purposes to use it please make sure\n# you setup an environment file with the following name: " ++ envFileName ++ ".\n# This file is sourced at the start of this Makefile and will be used to set\n# compiler paths and other tooling paths.\n# Do note that most variables can also be overwritten when invoking make\n# e.g to change the optimization flags\n# make -j 16 -f " ++ makefileNameConst ++ " DEBUG=0 OPTIMIZATION=-Os\n#\n# ChangeLog :\n#\t2017-02-10 - Several enhancements + project update mode\n#   2015-07-22 - first version\n#   2023-06-16 - Added .stm32env file inclusion\n#   2023-07-14 - Added file directory in the build folder\n#\t\t\t\t\t\t\t - Added debug and release build options\n#\t\t\t\t\t\t\t - Added multi platform support\n#\t\t\t\t\t\t\t - Added help target\n#\t\t\t\t\t\t\t - Added more documentation\n# ------------------------------------------------\n\n######################################\n# Environment Variables\n######################################\n# Imports the environment file in which the compiler and other tooling is set\n# for the build machine.\n# This can also be used to overwrite some makefile variables\ninclude " ++ envFileName ++ "\n\n######################################\n# Target \n######################################\n# This is the name of the embedded target which will be build\n# The final file name will also have debug or release appended to it.\n"

def seg1 : String :=
  "\n#######################################\n# Build directories\n#######################################\n# Build path can be overwritten when calling make or setting the environment variable\n# in " ++ envFileName ++ "\n\nBUILD_DIRECTORY ?= build\n\n\n######################################\n# Optimization\n######################################\n# Optimization is switched based upon the DEBUG variable. If set to 1\n# it will be build in debug mode with the Og optimization flag (optimized for debugging).\n# If set to 0 (false) then by default the variable is used in the configuration yaml\n# This can also be overwritten using the environment variable or by overwriting it\n# by calling make with the OPTIMIZATION variable e.g.: \n# make -f " ++ makefileNameConst ++ " -j 16  OPTIMIZATION=Os\n\n# variable which determines if it is a debug build\nDEBUG ?= 1\n\n# debug flags when debug is defined\n"

def seg2 : String :=
  "\nifeq ($(DEBUG),1)\n\t# Sets debugging optimization -Og and the debug information output\n\tOPTIMIZATION_FLAGS += -Og -g -gdwarf -ggdb\n\tTARGET += -debug \n\tRELEASE_DIRECTORY ?= $(BUILD_DIRECTORY)/debug\nelse\n\tOPTIMIZATION_FLAGS += $(OPTIMIZATION)\n\tTARGET += -release\n\tRELEASE_DIRECTORY ?= $(BUILD_DIRECTORY)/release\nendif\n\n######################################\n# Definitions\n######################################\n\n# C definitions\nC_DEFINITIONS =  \\\n"

def seg3 : String :=
  "\n\n# C++ definitions\nCXX_DEFINITIONS =  \\\n"

def seg4 : String :=
  "\n\n# Assembly definitions\nAS_DEFINITIONS =  \\\n"

def seg5 : String :=
  "\n\n######################################\n# Source Files\n######################################\n\n\n# C sources\nC_SOURCES +=  \\\n"

def seg6 : String :=
  "\n\nCXX_SOURCES += \\\n"

def seg7 : String :=
  "\n\n# ASM sources\nAS_SOURCES +=  \\\n"

def seg8 : String :=
  "\n\n\n######################################\n# Include Directories\n######################################\n# AS includes\nAS_INCLUDES = \\\n\n# C includes\nC_INCLUDES =  \\\n"

def seg9 : String :=
  "\n\n\n######################################\n# Target System Flags\n######################################\n# The specific flags for the target system\n# This sets things like hardware floating point and\n# which version a specific Cortex-M processor is.\n\n# cpu\n"

def seg10 : String :=
  "\n# fpu\n"

def seg11 : String :=
  "\n# float-abi\n"

def seg12 : String :=
  "\n# mcu\nMCU_FLAGS = $(CPU) -mthumb $(FPU) $(FLOAT-ABI)\n\n\n######################################\n# C and CPP Flags\n######################################\n\n# additional flags provided by the STM32 for VSCode configuration file\n"

def seg13 : String :=
  "\n# Provides dependency information about header files\n# This is used to recompile when a source file depends on\n# information from a header file\nDEPENDENCY_FLAGS = -MMD -MP -MF\"$(@:%.o=%.d)\"\n\n# Output a list file for the compiled source file.\n# This is a representative of the source code in assembly\nASSEMBLER_LIST_OUTPUT_FLAG = -Wa,-a,-ad,-alms=$(@D)/$($(notdir $@):%.o=%.lst)\n\n# Combining the compilation flags with language specific flags and MCU specific flags\nC_FLAGS = \\\n\t$(MCU_FLAGS) \\\n\t$(C_DEFINITIONS) \\\n\t$(C_INCLUDES) \\\n\t$(OPTIMIZATION_FLAGS) \\\n\t$(DEPENDENCY_FLAGS) \\\n\t$(ADDITIONAL_C_FLAGS) \\\n\t$(ASSEMBLER_LIST_OUTPUT_FLAG)\n\nCXX_FLAGS = \\ \n\t$(MCU_FLAGS) \\\n\t$(CXX_DEFINITIONS) \\\n\t$(C_INCLUDES) \\\n\t$(OPTIMIZATION_FLAGS) \\\n\t$(DEPENDENCY_FLAGS) \\\n\t$(ADDITIONAL_CXX_FLAGS) \\\n\t$(ASSEMBLER_LIST_OUTPUT_FLAG)\n\nAS_FLAGS = $(C_FLAGS) $(AS_DEFINITIONS) $(ADDITIONAL_AS_FLAGS)\n\n######################################\n# Linker Flags\n######################################\n# linker script. This script will determine where certain sections will\n# be place in memory.\n# For a good reference look at: https://blog.thea.codes/the-most-thoroughly-commented-linker-script/\n"

def seg14 : String :=
  "\n# libraries\nLIBRARIES := \\\n"

def seg15 : String :=
  "\n\n# library directories\nLIBRARY_DIRECTORIES := \\\n"

def seg16 : String :=
  "\n\n# Additional linker flags Flags from the yaml configuration file\n# can be overwritten in the environment file\nADDITIONAL_LINKER_FLAGS ?= "

def seg17 : String :=
  "\n\n# Flags for outputting a map file\n# -Wl,-Map= flag will output the map file to the specified file\n# --cref will generate a cross reference table in the map file\nLINKER_MAP_FLAGS ?= -Wl,-Map=$(RELEASE_DIRECTORY)/$(TARGET).map,--cref\n\n# Flags for cleaning up code at link time\n# --gc-sections will eliminate dead code e.g. unused functions\nLINKER_CLEAN_UP_FLAGS ?= -Wl,--gc-sections\n\nLINKER_FLAGS = \\\n\t$(MCU_FLAGS) \\\n\t$(LINKER_SCRIPT) \\\n\t$(LIBRARY_DIRECTORIES) \\\n\t$(LIBRARIES) \\\n\t$(LINKER_MAP_FLAGS) \\\n\t$(LINKER_CLEAN_UP_FLAGS)\n\n#######################################\n# Tools\n#######################################\nARM_PREFIX = arm-none-eabi-\nPOSTFIX = \"\nPREFIX = \"\n# The gcc compiler bin path can be defined in the make command via ARM_GCC_PATH variable (e.g.: make ARM_GCC_PATH=xxx)\n# or it can be added to the PATH environment variable.\n# By default the variable be used from the environment file: " ++ envFileName ++ ".\n# if it is not defined \n\nifdef ARM_GCC_PATH\n\t\tCC = $(PREFIX)$(ARM_GCC_PATH)/$(ARM_PREFIX)gcc$(POSTFIX)\n\t\tCXX = $(PREFIX)$(ARM_GCC_PATH)/$(ARM_PREFIX)g++$(POSTFIX)\n\t\tAS = $(PREFIX)$(ARM_GCC_PATH)/$(ARM_PREFIX)gcc$(POSTFIX) -x assembler-with-cpp\n\t\tCP = $(PREFIX)$(ARM_GCC_PATH)/$(ARM_PREFIX)objcopy$(POSTFIX)\n\t\tSZ = $(PREFIX)$(ARM_GCC_PATH)/$(ARM_PREFIX)size$(POSTFIX)\nelse\n\tCC ?= $(ARM_PREFIX)gcc\n\tCXX ?= $(ARM_PREFIX)g++$\n\tAS ?= $(ARM_PREFIX)gcc -x assembler-with-cpp\n\tCP ?= $(ARM_PREFIX)objcopy\n\tSZ ?= $(ARM_PREFIX)size\nendif\n\nHEX = $(CP) -O ihex\nBIN = $(CP) -O binary -S\n\n# Flash and debug tools\n# Default is openocd however will be gotten from the \nOPENOCD ?= openocd\n\nREMOVE_DIRECTORY_COMMAND = rm -fR\nMKDIR_COMMAND = mkdir\nifeq ($(OS),Windows_NT)\n\tREMOVE_DIRECTORY_COMMAND = cmd /c rd /s /q\nelse\n\tMKDIR_COMMAND += -p\nendif\n\n#######################################\n# Build rules \n#######################################\n\n# Create object list\n# Create object list\nOBJECTS = $(addprefix $(RELEASE_DIRECTORY)/,$(addsuffix .o,$(basename $(C_SOURCES))))\n# objects for the different C++ file extensions\nOBJECTS += $(addprefix $(RELEASE_DIRECTORY)/,$(addsuffix .o,$(basename $(CXX_SOURCES))))\n# Objects for assembly code\nOBJECTS += $(addprefix $(RELEASE_DIRECTORY)/,$(addsuffix .o,$(basename $(AS_SOURCES))))\n\n# Dependency files\nDEPENDENCY_FILES = $(OBJECTS:.o=.d)\n\n\n# the tree of folders which needs to be present based on the object files\nBUILD_TREE = $(sort $(dir $(OBJECTS)))\n\n\n\n#######################################\n# Build targets\n#######################################\n# default action: build all\n.PHONY: all\nall: $(BUILD_DIR)/$(TARGET).elf $(BUILD_DIR)/$(TARGET).hex $(BUILD_DIR)/$(TARGET).bin\n\n# Makes the build directory\n$(BUILD_DIRECTORY):\n\t$(MKDIR_COMMAND) $@\n\n# Makes the release folder\n$(RELEASE_DIRECTORY): | $(BUILD_DIRECTORY)\n\t$(MKDIR_COMMAND) $@\n\n$(BUILD_TREE):\n\t$(MKDIR_COMMAND) $@\n\n\n#######################################\n# Build Firmware\n#######################################\n\nFINAL_TARGET_NAME = $(RELEASE_DIRECTORY)/$(TARGET)\nELF_TARGET = $(FINAL_TARGET_NAME).elf\n\n$(FINAL_TARGET_NAME).elf: $(OBJECTS) " ++ makefileNameConst ++ " \n\t$(CC) $(OBJECTS) $(LDFLAGS) -o $@\n\t$(SZ) $@\n\n$(FINAL_TARGET_NAME).hex: $(FINAL_TARGET_NAME).elf \n\t$(HEX) $< $@\n\n$(FINAL_TARGET_NAME).bin: $(FINAL_TARGET_NAME).elf \n\t$(BIN) $< $@\n\n\n#######################################\n# Build rules\n#######################################\n\nsourcefile = $(patsubst $(RELEASE_FOLDER)/%.o,%.c,$(1))\n# Rules for creating the object files from the source files\n# c files\n$(RELEASE_DIRECTORY)/%.o: %.c $(RELEASE_DIRECTORY)/%.d | $(BUILD_TREE)\n\t$(CC) $(C_FLAGS) -c $< -o $@\n\n# cpp files\n$(RELEASE_DIRECTORY)/%.o: %.cpp $(RELEASE_DIRECTORY)/%.d | $(BUILD_TREE)\n\t$(CXX) $(CXX_FLAGS) -c $< -o $@\n$(RELEASE_DIRECTORY)/%.o: %.cc $(RELEASE_DIRECTORY)/%.d | $(BUILD_TREE)\n\t$(CXX) $(CXX_FLAGS) -c $< -o $@\n$(RELEASE_DIRECTORY)/%.o: %.cp $(RELEASE_DIRECTORY)/%.d | $(BUILD_TREE)\n\t$(CXX) $(CXX_FLAGS) -c $< -o $@\n$(RELEASE_DIRECTORY)/%.o: %.CPP $(RELEASE_DIRECTORY)/%.d | $(BUILD_TREE)\n\t$(CXX) $(CXX_FLAGS) -c $< -o $@\n$(RELEASE_DIRECTORY)/%.o: %.c++ $(RELEASE_DIRECTORY)/%.d | $(BUILD_TREE)\n\t$(CXX) $(CXX_FLAGS) -c $< -o $@\n$(RELEASE_DIRECTORY)/%.o: %.C++ $(RELEASE_DIRECTORY)/%.d | $(BUILD_TREE)\n\t$(CXX) $(CXX_FLAGS) -c $< -o $@\n\n# assembly files\n$(RELEASE_DIRECTORY)/%.o: %.s $(RELEASE_DIRECTORY)/%.d | $(BUILD_TREE)\n\t$(CXX) $(CXX_FLAGS) -c $< -o $@\n$(RELEASE_DIRECTORY)/%.o: %.S $(RELEASE_DIRECTORY)/%.d | $(BUILD_TREE)\n\t$(CXX) $(CXX_FLAGS) -c $< -o $@\n\n#######################################\n# Build targets\n#######################################\n# Makes the build directory\n$(BUILD_DIRECTORY):\n\t$(MKDIR_COMMAND) $@\n\n# Makes the release folder\n$(RELEASE_DIRECTORY): | $(BUILD_DIRECTORY)\n\t$(MKDIR_COMMAND) $@\n\n$(BUILD_TREE):\n\t$(MKDIR_COMMAND) $@\n\n#######################################\n# All\n#######################################\n# default action: build all\n.PHONY: all\nall: $(FINAL_TARGET_NAME).elf $(FINAL_TARGET_NAME).hex $(FINAL_TARGET_NAME).bin\n\n#######################################\n# flash\n#######################################\nflash: $(FINAL_TARGET_NAME).elf\n\t$(OPENOCD) -f ./openocd.cfg -c \"program $(FINAL_TARGET_NAME).elf verify reset exit\"\n\n#######################################\n# erase\n#######################################\nerase: $(BUILD_DIR)/$(TARGET).elf\n\t$(OPENOCD) -f ./openocd.cfg -c \"init; reset halt; "

def seg18 : String :=
  " mass_erase 0; exit\"\n\n#######################################\n# clean up\n#######################################\n\nclean:\n\t$(REMOVE_DIRECTORY_COMMAND) $(BUILD_DIR)\n\n#######################################\n# custom makefile rules\n#######################################\n\n"

def seg19 : String :=
  "\n\t\n#######################################\n# dependencies\n#######################################\n-include $(wildcard $(RELEASE_DIRECTORY)/*.d)\n\n# *** EOF ***"

/-- The template text after the last multi-line list interpolation point
(`LIBRARY_DIRECTORIES`): additional linker flags, tools, build rules,
flash/erase/clean targets, the custom-rules splice and the trailing fixed
text. -/
def tailT (mi : MakeInfo) : String :=
  seg16 ++
  createSingleLineStringList mi.ldFlags none ++
  seg17 ++
  mi.targetMCU ++
  seg18 ++
  customMakefileRulesString mi ++
  seg19

/-- Embeds `createMakefile` (CreateMakefile.ts, lines 127-525): the full
template, as the concatenation of the fixed segments `seg0`-`seg19` and the 21
interpolation points, grouped so that every piece before `tailT` spans whole
lines. The concatenation is byte-identical to the TypeScript template literal.
-/
def createMakefile (mi : MakeInfo) : String :=
  seg0 ++
  ("TARGET ?= " ++ mi.target ++ "\n") ++
  seg1 ++
  ("OPTIMIZATION ?= " ++ mi.optimization ++ "\n") ++
  seg2 ++
  createStringList mi.cDefs (some "-D") ++
  seg3 ++
  createStringList mi.cxxDefs (some "-D") ++
  seg4 ++
  createStringList mi.asDefs (some "-D") ++
  seg5 ++
  createStringList mi.cSources none ++
  seg6 ++
  createStringList mi.cxxSources none ++
  seg7 ++
  createStringList mi.asmSources none ++
  seg8 ++
  createStringList mi.cIncludes (some "-I") ++
  seg9 ++
  ("CPU = " ++ createPrefixWhenNoneExists mi.cpu "-mcpu=" ++ "\n") ++
  seg10 ++
  ("FPU = " ++ createPrefixWhenNoneExists mi.fpu "-mfpu=" ++ "\n") ++
  seg11 ++
  ("FLOAT-ABI = " ++ createPrefixWhenNoneExists mi.floatAbi "-mfloat-abi=" ++ "\n") ++
  seg12 ++
  ("ADDITIONAL_C_FLAGS := " ++ createSingleLineStringList mi.cFlags none ++ "\n") ++
  ("ADDITIONAL_CXX_FLAGS := " ++ createSingleLineStringList mi.cxxFlags none ++ "\n") ++
  ("ADDITIONAL_AS_FLAGS := " ++ createSingleLineStringList mi.assemblyFlags none ++ "\n") ++
  seg13 ++
  ("LINKER_SCRIPT := -T" ++ mi.ldscript ++ "\n") ++
  seg14 ++
  createStringList mi.libs (some "-l") ++
  seg15 ++
  createStringList mi.libdir (some "-L") ++
  tailT mi

/-- A substring of the right part is a substring of a concatenation. -/
theorem hasSub_append_of_right : ∀ (s : List Char) {pat t : List Char},
    hasSub pat t = true → hasSub pat (s ++ t) = true
  | [], _, _, h => h
  | c :: cs, pat, t, h => by
    simp only [List.cons_append, hasSub, Bool.or_eq_true]
    exact Or.inr (hasSub_append_of_right cs h)

/-- Lifting `hasSub_append_of_right` to `strContains`. -/
theorem strContains_append_right (s t pat : String)
    (h : strContains t pat = true) : strContains (s ++ t) pat = true := by
  unfold strContains at *
  rw [String.data_append]
  exact hasSub_append_of_right s.data h

set_option maxRecDepth 16384 in
/-- C3: when `customMakefileRules` is absent or the empty list, the renderer
returns `""`, the generated Makefile coincides with the one generated with the
field absent, and the custom-rules region of the output is exactly the fixed
template text (the static banner followed only by the template's own blank and
tab lines, directly abutting the dependencies banner). -/
theorem customMakefileRules_empty (mi : MakeInfo)
    (h : mi.customMakefileRules = none ∨ mi.customMakefileRules = some []) :
    customMakefileRulesString mi = "" ∧
    createMakefile mi = createMakefile { mi with customMakefileRules := none } ∧
    strContains (createMakefile mi)
      ("# custom makefile rules\n#######################################\n\n\n\t\n" ++
        "#######################################\n# dependencies") = true := by
  have h0 : customMakefileRulesString mi = "" := by
    rcases h with h | h <;> simp [customMakefileRulesString, h]
  refine ⟨h0, by simp only [createMakefile, tailT, h0]; rfl, ?_⟩
  simp only [createMakefile, tailT, h0, str_append_empty, str_empty_append,
    str_append_assoc]
  iterate 56 apply strContains_append_right
  decide

/-- Witness for C3 at a concrete `MakeInfo`. -/
theorem customMakefileRules_empty_witness :
    customMakefileRulesString { target := "otter", customMakefileRules := some [] } = "" ∧
    createMakefile { target := "otter", customMakefileRules := some [] } =
      createMakefile { target := "otter", customMakefileRules := none } := by
  have h := customMakefileRules_empty
    { target := "otter", customMakefileRules := some [] } (Or.inr rfl)
  exact ⟨h.1, h.2.1⟩

/-! ## The Makefile extractor (spec-modelled)

The extraction rules live in `getInfo/getCubeMakefileInfo.ts`, which is not
under `src/` (only its unit tests are). The definitions below are modelled from
the spec (§4.5, §4.2): line-oriented extraction with case-insensitive key
matching against the common assignment syntaxes (`=`, `:=`, `+=`, `?=`),
trailing-backslash continuation collection, whitespace tokenization for the
library list, and prefix stripping. -/

/-- Whitespace for trimming/tokenizing (space, tab, carriage return). -/
def isWsChar (c : Char) : Bool := c = ' ' || c = '\t' || c = '\r'

/-- Trim leading and trailing whitespace from a character list. -/
def trimChars (l : List Char) : List Char :=
  ((l.dropWhile isWsChar).reverse.dropWhile isWsChar).reverse

/-- Case-insensitively strip `key` from the front of a line; `none` when the
line does not start with the key. -/
def ciStrip : List Char → List Char → Option (List Char)
  | [], rest => some rest
  | _ :: _, [] => none
  | k :: ks, c :: cs => if k.toLower = c.toLower then ciStrip ks cs else none

/-- The tail after the optional `:`, `+` or `?` symbol: an `=` must follow. -/
def rhsSym : List Char → Option (List Char)
  | [] => none
  | d :: ds => if d = '=' then some ds else none

/-- After whitespace skipping: `=` directly, or one of `:`, `+`, `?` followed
by `=`. -/
def rhsCore : List Char → Option (List Char)
  | [] => none
  | c :: cs =>
    if c = '=' then some cs
    else if c = ':' ∨ c = '+' ∨ c = '?' then rhsSym cs
    else none

/-- After the key: optional whitespace, an optional `:`, `+` or `?`, then `=`;
returns the raw right-hand side. -/
def rhsAfterEq (l : List Char) : Option (List Char) :=
  rhsCore (l.dropWhile isWsChar)

/-- Does the line start (case-insensitively) with `key` followed by an
assignment? If so, return the raw right-hand side. -/
def assignRhs (key l : List Char) : Option (List Char) :=
  (ciStrip key l).bind rhsAfterEq

/-- Does the line end with the `\` continuation marker? -/
def lastIsBackslash (l : List Char) : Bool :=
  match l.getLast? with
  | some c => c = '\\'
  | none => false

/-- Collect the raw continuation lines: every line is collected as long as the
previous line carried the trailing continuation marker; the first line without
the marker is the last one collected. -/
def collectRaw : List (List Char) → List (List Char)
  | [] => []
  | l :: ls => if lastIsBackslash l then l :: collectRaw ls else [l]

/-- A collected continuation line as a list entry: the marker is removed and
the line is trimmed. -/
def entryOf (l : List Char) : List Char :=
  trimChars (if lastIsBackslash l then l.dropLast else l)

/-- Find the first assignment line for `key`: returns the line, its raw
right-hand side and the remaining lines. -/
def findAssign (key : List Char) :
    List (List Char) → Option (List Char × List Char × List (List Char))
  | [] => none
  | l :: ls =>
    match assignRhs key l with
    | some r => some (l, r, ls)
    | none => findAssign key ls

/-- Modelled from the spec (§4.5): multi-line field extraction. Locate the
assignment line for `name` (case-insensitive, any assignment style), then
collect the continuation lines while the marker persists; each collected line
is trimmed (marker removed) and becomes one entry, blank entries are dropped.
Absent key, or an assignment line without the continuation marker, yields `[]`
— extraction is total and never throws. -/
def extractMultiLineInfo (name : String) (information : String) : List String :=
  match findAssign name.data (splitOnChar '\n' information.data) with
  | none => []
  | some (l, _, ls) =>
    if lastIsBackslash l then
      (((collectRaw ls).map entryOf).filter (fun e => e ≠ [])).map
        (fun e => String.mk e)
    else []

/-- Modelled from the spec (§4.5): single-line field extraction; the trimmed
right-hand side of the first matching assignment line, with `none` as the
distinguishable not-found sentinel. -/
def extractSingleLineInfo (name : String) (information : String) : Option String :=
  match findAssign name.data (splitOnChar '\n' information.data) with
  | none => none
  | some (_, r, _) => some (String.mk (trimChars r))

/-- Split a character list on whitespace runs. -/
def splitOnWs : List Char → List (List Char)
  | [] => [[]]
  | c :: cs =>
    if isWsChar c then [] :: splitOnWs cs
    else match splitOnWs cs with
      | [] => [[c]]
      | l :: ls => (c :: l) :: ls

/-- Whitespace tokenization (empty tokens dropped). -/
def wsTokens (l : List Char) : List (List Char) :=
  (splitOnWs l).filter (fun t => t ≠ [])

/-- Modelled from the spec (§4.5): library-list extraction. A single/multi-line
hybrid: the value of the `libraries` assignment together with its continuation
lines is tokenized on whitespace, keeping only tokens with the leading `-l`
link-flag marker, in their original order. -/
def extractlibraries (information : String) : List String :=
  match findAssign "libraries".data (splitOnChar '\n' information.data) with
  | none => []
  | some (l, r, ls) =>
    let region := r :: (if lastIsBackslash l then collectRaw ls else [])
    (((region.map wsTokens).flatten).filter
        (fun t => leadsWith "-l".data t)).map (fun t => String.mk t)

/-- Modelled from the spec (§4.2) and fixed by the repository's unit test:
`removePrefixes` strips exactly one leading occurrence of the prefix from each
entry, leaving the remainder (including embedded whitespace) intact; entries
without the prefix pass through unchanged. -/
def removePrefixes (arr : List String) (pre : String) : List String :=
  arr.map (fun e =>
    if leadsWith pre.data e.data then String.mk (e.data.drop pre.data.length)
    else e)

/-- Modelled from the spec (§3): the structured result of whole-document
extraction; field names as used by the repository's tests. -/
structure ExtractedMakefileInfo where
  target : String := ""
  cpu : String := ""
  fpu : String := ""
  floatAbi : String := ""
  linkerScript : String := ""
  cSources : List String := []
  cxxSources : List String := []
  assemblySources : List String := []
  cIncludeDirectories : List String := []
  cDefinitions : List String := []
  cxxDefinitions : List String := []
  assemblyDefinitions : List String := []
  libraries : List String := []
  libraryDirectories : List String := []

/-- Modelled from the spec (§4.5): whole-document extraction, orchestrating the
field rules over the generated variable names. Prefixed families are kept in
their flag form; normalization via `removePrefixes` is a separate explicit
step, exactly as in the repository's tests. -/
def extractMakefileInfo (information : String) : ExtractedMakefileInfo :=
  { target := (extractSingleLineInfo "TARGET" information).getD ""
    cpu := (extractSingleLineInfo "CPU" information).getD ""
    fpu := (extractSingleLineInfo "FPU" information).getD ""
    floatAbi := (extractSingleLineInfo "FLOAT-ABI" information).getD ""
    linkerScript := (extractSingleLineInfo "LINKER_SCRIPT" information).getD ""
    cSources := extractMultiLineInfo "C_SOURCES" information
    cxxSources := extractMultiLineInfo "CXX_SOURCES" information
    assemblySources := extractMultiLineInfo "AS_SOURCES" information
    cIncludeDirectories := extractMultiLineInfo "C_INCLUDES" information
    cDefinitions := extractMultiLineInfo "C_DEFINITIONS" information
    cxxDefinitions := extractMultiLineInfo "CXX_DEFINITIONS" information
    assemblyDefinitions := extractMultiLineInfo "AS_DEFINITIONS" information
    libraries := extractlibraries information
    libraryDirectories := extractMultiLineInfo "LIBRARY_DIRECTORIES" information }

theorem findAssign_none {key : List Char} : ∀ {lines : List (List Char)},
    (∀ l ∈ lines, assignRhs key l = none) → findAssign key lines = none
  | [], _ => rfl
  | l :: ls, h => by
    have h0 := h l (List.mem_cons_self l ls)
    simp only [findAssign, h0]
    exact findAssign_none (fun x hx => h x (List.mem_cons_of_mem l hx))

theorem findAssign_skip {key : List Char} : ∀ {A : List (List Char)}
    (B : List (List Char)), (∀ l ∈ A, assignRhs key l = none) →
    findAssign key (A ++ B) = findAssign key B
  | [], _, _ => rfl
  | l :: A, B, h => by
    have h0 := h l (List.mem_cons_self l A)
    simp only [List.cons_append, findAssign, h0]
    exact findAssign_skip B (fun x hx => h x (List.mem_cons_of_mem l hx))

/-- C7: prefix removal strips exactly one leading occurrence of the prefix,
keeps the remainder (embedded whitespace included) intact, passes non-prefixed
entries through unchanged, and on the documented example behaves exactly as the
repository's unit test demands. -/
theorem removePrefixes_spec (arr : List String) (p : String) :
    List.Forall₂
      (fun e r =>
        (leadsWith p.data e.data = true → p ++ r = e) ∧
        (leadsWith p.data e.data = false → r = e))
      arr (removePrefixes arr p) ∧
    removePrefixes ["-lentry1", "-lentry_two-l", "-l entry three"] "-l" =
      ["entry1", "entry_two-l", " entry three"] := by
  constructor
  · induction arr with
    | nil => exact List.Forall₂.nil
    | cons x xs ih =>
      refine List.Forall₂.cons ⟨?_, ?_⟩ ih
      · intro hl
        simp only [if_pos hl]
        rw [str_append_data]
        apply String.ext
        show p.data ++ x.data.drop p.data.length = x.data
        exact (leadsWith_append_drop p.data x.data hl).symm
      · intro hl
        simp [hl]
  · decide

/-- Witness for C7 (the general part applied at a concrete entry). -/
theorem removePrefixes_spec_witness :
    removePrefixes ["-lm"] "-l" = ["m"] ∧
    "-l" ++ "m" = "-lm" := by
  have h := (removePrefixes_spec ["-lm"] "-l").1
  have h2 : removePrefixes ["-lm"] "-l" = ["m"] := by decide
  rcases h with _ | ⟨⟨hyes, _⟩, _⟩
  refine ⟨h2, ?_⟩
  exact hyes (by decide)

/-- C8: multi-line extraction is total by construction and yields `[]` rather
than an error both when the key matches no line of the text and when the
matched assignment line carries no continuation marker. -/
theorem extractMultiLineInfo_total (name text : String) :
    ((∀ l ∈ splitOnChar '\n' text.data, assignRhs name.data l = none) →
      extractMultiLineInfo name text = []) ∧
    (∀ (A : List (List Char)) (asn : List Char) (B : List (List Char)),
      splitOnChar '\n' text.data = A ++ asn :: B →
      (∀ l ∈ A, assignRhs name.data l = none) →
      (assignRhs name.data asn).isSome = true →
      lastIsBackslash asn = false →
      extractMultiLineInfo name text = []) := by
  constructor
  · intro h
    unfold extractMultiLineInfo
    rw [findAssign_none h]
  · intro A asn B hsplit hskip hsome hbs
    unfold extractMultiLineInfo
    rw [hsplit, findAssign_skip (asn :: B) hskip]
    obtain ⟨r, hr⟩ := Option.isSome_iff_exists.mp hsome
    simp only [findAssign, hr, hbs]
    rfl

/-- Witness for C8 at concrete texts: an absent key, and a key present with no
continuation. -/
theorem extractMultiLineInfo_total_witness :
    extractMultiLineInfo "C_SOURCES" "TARGET = foo\nDEBUG ?= 1\n" = [] ∧
    extractMultiLineInfo "TARGET" "TARGET = foo\nDEBUG ?= 1\n" = [] := by
  constructor
  · exact (extractMultiLineInfo_total "C_SOURCES" "TARGET = foo\nDEBUG ?= 1\n").1
      (by decide)
  · exact (extractMultiLineInfo_total "TARGET" "TARGET = foo\nDEBUG ?= 1\n").2
      [] "TARGET = foo".data ["DEBUG ?= 1".data, []] (by decide) (by decide)
      (by decide) (by decide)

/-! ## Line algebra for the generated text -/

theorem splitOnChar_ne_nil (sep : Char) : ∀ l, splitOnChar sep l ≠ [] := by
  intro l
  induction l with
  | nil => simp [splitOnChar]
  | cons c cs ih =>
    simp only [splitOnChar]
    by_cases h : c = sep
    · simp [h]
    · simp only [if_neg h]
      cases hs : splitOnChar sep cs with
      | nil => simp
      | cons a as => simp

theorem splitOnChar_cons_of_eq (sep : Char) (x : List Char) :
    splitOnChar sep (sep :: x) = [] :: splitOnChar sep x := by
  simp [splitOnChar]

theorem splitOnChar_cons_of_ne {sep c : Char} (x : List Char) (h : ¬ c = sep)
    {u : List Char} {us : List (List Char)} (hx : splitOnChar sep x = u :: us) :
    splitOnChar sep (c :: x) = (c :: u) :: us := by
  simp [splitOnChar, h, hx]

/-- Splitting a separator-free run followed by a separator peels one line. -/
theorem splitOnChar_run_append (sep : Char) : ∀ (w z : List Char), sep ∉ w →
    splitOnChar sep (w ++ sep :: z) = w :: splitOnChar sep z
  | [], z, _ => by simp [splitOnChar_cons_of_eq]
  | c :: w, z, h => by
    have hc : ¬ c = sep := fun hcc => h (hcc ▸ List.mem_cons_self c w)
    have ih := splitOnChar_run_append sep w z (fun hm => h (List.mem_cons_of_mem c hm))
    rw [List.cons_append, splitOnChar_cons_of_ne (w ++ sep :: z) hc ih]

/-- Splitting a separator-free list gives a single line. -/
theorem splitOnChar_no_sep (sep : Char) : ∀ (w : List Char), sep ∉ w →
    splitOnChar sep w = [w]
  | [], _ => rfl
  | c :: w, h => by
    have hc : ¬ c = sep := fun hcc => h (hcc ▸ List.mem_cons_self c w)
    have ih := splitOnChar_no_sep sep w (fun hm => h (List.mem_cons_of_mem c hm))
    rw [splitOnChar_cons_of_ne w hc ih]

/-- Appending after a list whose split ends in an empty line (it is empty or
ends with the separator) concatenates the line lists. -/
theorem splitOnChar_append_whole (sep : Char) : ∀ (x y : List Char),
    (splitOnChar sep x).getLast? = some [] →
    splitOnChar sep (x ++ y) = (splitOnChar sep x).dropLast ++ splitOnChar sep y := by
  intro x
  induction x with
  | nil => intro y _; simp [splitOnChar]
  | cons c x ih =>
    intro y h
    cases hsp : splitOnChar sep x with
    | nil => exact absurd hsp (splitOnChar_ne_nil sep x)
    | cons a as =>
      by_cases hc : c = sep
      · subst hc
        rw [splitOnChar_cons_of_eq] at h
        have h2 : (splitOnChar c x).getLast? = some [] := by
          rw [hsp] at h ⊢
          rwa [List.getLast?_cons_cons] at h
        rw [List.cons_append, splitOnChar_cons_of_eq, splitOnChar_cons_of_eq,
          ih y h2, hsp, List.dropLast_cons₂]
        simp
      · rw [splitOnChar_cons_of_ne x hc hsp] at h
        cases as with
        | nil => simp at h
        | cons b bs =>
          rw [List.getLast?_cons_cons] at h
          have h2 : (splitOnChar sep x).getLast? = some [] := by
            rw [hsp, List.getLast?_cons_cons]
            exact h
          have hih := ih y h2
          rw [hsp, List.dropLast_cons₂, List.cons_append] at hih
          rw [List.cons_append, splitOnChar_cons_of_ne (x ++ y) hc hih,
            splitOnChar_cons_of_ne x hc hsp, List.dropLast_cons₂]
          simp

/-- The complete lines of a string: its line list without the trailing
fragment after the last newline. -/
def segW (s : String) : List (List Char) := (splitOnChar '\n' s.data).dropLast

/-- The rendered entry lines of `createStringList`: `prefix + entry + " \"`
for every entry but the last, `prefix + entry` for the last. -/
def cslLines (pfx : List Char) : List (List Char) → List (List Char)
  | [] => []
  | [e] => [pfx ++ e]
  | e :: f :: rest => (pfx ++ e ++ [' ', '\\']) :: cslLines pfx (f :: rest)

/-- Step lemma: a fixed whole-line segment contributes its complete lines. -/
theorem lines_seg_append (s rest : String)
    (hx : (splitOnChar '\n' s.data).getLast? = some []) :
    splitOnChar '\n' (s ++ rest).data = segW s ++ splitOnChar '\n' rest.data := by
  rw [String.data_append]
  exact splitOnChar_append_whole '\n' s.data rest.data hx

/-- Step lemma: a spliced line `head ++ value ++ "\n"` contributes one line. -/
theorem lines_line_append (h v rest : String)
    (hh : '\n' ∉ h.data) (hv : '\n' ∉ v.data) :
    splitOnChar '\n' (h ++ (v ++ ("\n" ++ rest))).data =
      (h.data ++ v.data) :: splitOnChar '\n' rest.data := by
  have hw : '\n' ∉ h.data ++ v.data := by
    intro hm
    rcases List.mem_append.mp hm with hm | hm
    exacts [hh hm, hv hm]
  rw [String.data_append, String.data_append, String.data_append,
    show ("\n" : String).data = ['\n'] from rfl, List.singleton_append,
    ← List.append_assoc]
  exact splitOnChar_run_append '\n' (h.data ++ v.data) rest.data hw

theorem lines_renderLines_append (pfx : String) (hp : '\n' ∉ pfx.data) :
    ∀ (L : List String) (rest : String), (∀ e ∈ L, '\n' ∉ e.data) →
    splitOnChar '\n' (renderLines pfx L ++ rest).data =
      cslLines pfx.data (L.map String.data) ++ splitOnChar '\n' rest.data
  | [], rest, _ => by
    rw [show renderLines pfx [] = "" from rfl, str_empty_append]
    rfl
  | [e], rest, hL => by
    have hw : '\n' ∉ pfx.data ++ e.data := by
      intro hm
      rcases List.mem_append.mp hm with hm | hm
      exacts [hp hm, hL e (List.mem_singleton_self e) hm]
    rw [show renderLines pfx [e] = pfx ++ e ++ "\n" from rfl]
    rw [str_append_assoc, str_append_assoc, String.data_append,
      String.data_append, String.data_append,
      show ("\n" : String).data = ['\n'] from rfl, List.singleton_append,
      ← List.append_assoc]
    rw [splitOnChar_run_append '\n' (pfx.data ++ e.data) rest.data hw]
    rfl
  | e :: f :: L, rest, hL => by
    have ih := lines_renderLines_append pfx hp (f :: L) rest
      (fun x hx => hL x (List.mem_cons_of_mem e hx))
    have hw : '\n' ∉ pfx.data ++ e.data ++ [' ', '\\'] := by
      intro hm
      rcases List.mem_append.mp hm with hm | hm
      · rcases List.mem_append.mp hm with hm | hm
        · exact hp hm
        · exact hL e (List.mem_cons_self e _) hm
      · simp at hm
    rw [String.data_append] at ih
    rw [show renderLines pfx (e :: f :: L) =
        pfx ++ e ++ " \\" ++ "\n" ++ renderLines pfx (f :: L) from rfl]
    rw [str_append_assoc, str_append_assoc, str_append_assoc, str_append_assoc,
      String.data_append, String.data_append, String.data_append,
      String.data_append, String.data_append,
      show ("\n" : String).data = ['\n'] from rfl,
      show (" \\" : String).data = [' ', '\\'] from rfl, List.singleton_append]
    rw [show pfx.data ++ (e.data ++ ([' ', '\\'] ++
        ('\n' :: ((renderLines pfx (f :: L)).data ++ rest.data)))) =
      (pfx.data ++ e.data ++ [' ', '\\']) ++
        ('\n' :: ((renderLines pfx (f :: L)).data ++ rest.data)) from by
      simp [List.append_assoc]]
    rw [splitOnChar_run_append '\n' _ _ hw, ih]
    rfl

/-- Step lemma: a `createStringList` splice contributes its entry lines. -/
theorem lines_csl_append (arr : List String) (p : Option String) (pfxS : String)
    (hps : p.getD "" = pfxS) (rest : String)
    (hp : '\n' ∉ pfxS.data) (ha : ∀ e ∈ arr, '\n' ∉ e.data) :
    splitOnChar '\n' (createStringList arr p ++ rest).data =
      cslLines pfxS.data ((sortStr (uniqFirst arr)).map String.data) ++
        splitOnChar '\n' rest.data := by
  have ha2 : ∀ e ∈ sortStr (uniqFirst arr), '\n' ∉ e.data := fun e he =>
    ha e (mem_uniqFirst.mp (mem_sortStr.mp he))
  unfold createStringList
  rw [hps]
  exact lines_renderLines_append pfxS hp (sortStr (uniqFirst arr)) rest ha2

/-! Newline-freedom of the spliced scalar values. -/

theorem noNl_createPrefixWhenNoneExists (x p : String)
    (hx : '\n' ∉ x.data) (hp : '\n' ∉ p.data) :
    '\n' ∉ (createPrefixWhenNoneExists x p).data := by
  unfold createPrefixWhenNoneExists
  split_ifs with h1 h2
  · decide
  · exact hx
  · rw [String.data_append]
    intro hm
    rcases List.mem_append.mp hm with hm | hm
    exacts [hp hm, hx hm]

theorem noNl_strConcat : ∀ (L : List String), (∀ s ∈ L, '\n' ∉ s.data) →
    '\n' ∉ (strConcat L).data
  | [], _ => by intro hm; simp [strConcat] at hm
  | s :: L, h => by
    have ih := noNl_strConcat L (fun x hx => h x (List.mem_cons_of_mem s hx))
    rw [show strConcat (s :: L) = s ++ strConcat L from rfl, String.data_append]
    intro hm
    rcases List.mem_append.mp hm with hm | hm
    exacts [h s (List.mem_cons_self s L) hm, ih hm]

theorem noNl_createSingleLineStringList (arr : List String) (p : Option String)
    (hp : '\n' ∉ (p.getD "").data) (ha : ∀ e ∈ arr, '\n' ∉ e.data) :
    '\n' ∉ (createSingleLineStringList arr p).data := by
  unfold createSingleLineStringList
  apply noNl_strConcat
  intro s hs
  obtain ⟨e, he, rfl⟩ := List.mem_map.mp hs
  rw [str_append_assoc, String.data_append, String.data_append]
  intro hm
  rcases List.mem_append.mp hm with hm | hm
  · exact hp hm
  rcases List.mem_append.mp hm with hm | hm
  · exact ha e (mem_uniqFirst.mp (mem_sortStr.mp he)) hm
  · simp at hm

set_option maxRecDepth 65536 in
set_option maxHeartbeats 1000000 in
/-- The full line-level decomposition of the generated Makefile text, under
newline-freedom of the spliced scalar values and list entries. -/
theorem lines_createMakefile (mi : MakeInfo)
    (htgt : '\n' ∉ mi.target.data) (hopt : '\n' ∉ mi.optimization.data)
    (hcpu : '\n' ∉ mi.cpu.data) (hfpu : '\n' ∉ mi.fpu.data)
    (hfab : '\n' ∉ mi.floatAbi.data) (hlds : '\n' ∉ mi.ldscript.data)
    (hcf : ∀ e ∈ mi.cFlags, '\n' ∉ e.data)
    (hcxf : ∀ e ∈ mi.cxxFlags, '\n' ∉ e.data)
    (haf : ∀ e ∈ mi.assemblyFlags, '\n' ∉ e.data)
    (hcD : ∀ e ∈ mi.cDefs, '\n' ∉ e.data)
    (hcxD : ∀ e ∈ mi.cxxDefs, '\n' ∉ e.data)
    (haD : ∀ e ∈ mi.asDefs, '\n' ∉ e.data)
    (hcS : ∀ e ∈ mi.cSources, '\n' ∉ e.data)
    (hcxS : ∀ e ∈ mi.cxxSources, '\n' ∉ e.data)
    (haS : ∀ e ∈ mi.asmSources, '\n' ∉ e.data)
    (hcI : ∀ e ∈ mi.cIncludes, '\n' ∉ e.data)
    (hlb : ∀ e ∈ mi.libs, '\n' ∉ e.data)
    (hld : ∀ e ∈ mi.libdir, '\n' ∉ e.data) :
    splitOnChar '\n' (createMakefile mi).data =
      segW seg0 ++ ((("TARGET ?= " : String).data ++ (mi.target).data) :: (segW seg1 ++ ((("OPTIMIZATION ?= " : String).data ++ (mi.optimization).data) :: (segW seg2 ++ (cslLines ("-D" : String).data (List.map String.data (sortStr (uniqFirst mi.cDefs))) ++ (segW seg3 ++ (cslLines ("-D" : String).data (List.map String.data (sortStr (uniqFirst mi.cxxDefs))) ++ (segW seg4 ++ (cslLines ("-D" : String).data (List.map String.data (sortStr (uniqFirst mi.asDefs))) ++ (segW seg5 ++ (cslLines ("" : String).data (List.map String.data (sortStr (uniqFirst mi.cSources))) ++ (segW seg6 ++ (cslLines ("" : String).data (List.map String.data (sortStr (uniqFirst mi.cxxSources))) ++ (segW seg7 ++ (cslLines ("" : String).data (List.map String.data (sortStr (uniqFirst mi.asmSources))) ++ (segW seg8 ++ (cslLines ("-I" : String).data (List.map String.data (sortStr (uniqFirst mi.cIncludes))) ++ (segW seg9 ++ ((("CPU = " : String).data ++ (createPrefixWhenNoneExists mi.cpu "-mcpu=").data) :: (segW seg10 ++ ((("FPU = " : String).data ++ (createPrefixWhenNoneExists mi.fpu "-mfpu=").data) :: (segW seg11 ++ ((("FLOAT-ABI = " : String).data ++ (createPrefixWhenNoneExists mi.floatAbi "-mfloat-abi=").data) :: (segW seg12 ++ ((("ADDITIONAL_C_FLAGS := " : String).data ++ (createSingleLineStringList mi.cFlags none).data) :: ((("ADDITIONAL_CXX_FLAGS := " : String).data ++ (createSingleLineStringList mi.cxxFlags none).data) :: ((("ADDITIONAL_AS_FLAGS := " : String).data ++ (createSingleLineStringList mi.assemblyFlags none).data) :: (segW seg13 ++ ((("LINKER_SCRIPT := -T" : String).data ++ (mi.ldscript).data) :: (segW seg14 ++ (cslLines ("-l" : String).data (List.map String.data (sortStr (uniqFirst mi.libs))) ++ (segW seg15 ++ (cslLines ("-L" : String).data (List.map String.data (sortStr (uniqFirst mi.libdir))) ++ (splitOnChar '\n' (tailT mi).data)))))))))))))))))))))))))))))))))) := by
  unfold createMakefile
  simp only [str_append_assoc]
  rw [lines_seg_append seg0 _ (by decide),
    lines_line_append "TARGET ?= " mi.target _ (by decide) htgt,
    lines_seg_append seg1 _ (by decide),
    lines_line_append "OPTIMIZATION ?= " mi.optimization _ (by decide) hopt,
    lines_seg_append seg2 _ (by decide),
    lines_csl_append mi.cDefs (some "-D") "-D" rfl _ (by decide) hcD,
    lines_seg_append seg3 _ (by decide),
    lines_csl_append mi.cxxDefs (some "-D") "-D" rfl _ (by decide) hcxD,
    lines_seg_append seg4 _ (by decide),
    lines_csl_append mi.asDefs (some "-D") "-D" rfl _ (by decide) haD,
    lines_seg_append seg5 _ (by decide),
    lines_csl_append mi.cSources (none) "" rfl _ (by decide) hcS,
    lines_seg_append seg6 _ (by decide),
    lines_csl_append mi.cxxSources (none) "" rfl _ (by decide) hcxS,
    lines_seg_append seg7 _ (by decide),
    lines_csl_append mi.asmSources (none) "" rfl _ (by decide) haS,
    lines_seg_append seg8 _ (by decide),
    lines_csl_append mi.cIncludes (some "-I") "-I" rfl _ (by decide) hcI,
    lines_seg_append seg9 _ (by decide),
    lines_line_append "CPU = " (createPrefixWhenNoneExists mi.cpu "-mcpu=") _ (by decide)
      (noNl_createPrefixWhenNoneExists mi.cpu "-mcpu=" hcpu (by decide)),
    lines_seg_append seg10 _ (by decide),
    lines_line_append "FPU = " (createPrefixWhenNoneExists mi.fpu "-mfpu=") _ (by decide)
      (noNl_createPrefixWhenNoneExists mi.fpu "-mfpu=" hfpu (by decide)),
    lines_seg_append seg11 _ (by decide),
    lines_line_append "FLOAT-ABI = " (createPrefixWhenNoneExists mi.floatAbi "-mfloat-abi=") _ (by decide)
      (noNl_createPrefixWhenNoneExists mi.floatAbi "-mfloat-abi=" hfab (by decide)),
    lines_seg_append seg12 _ (by decide),
    lines_line_append "ADDITIONAL_C_FLAGS := " (createSingleLineStringList mi.cFlags none) _ (by decide)
      (noNl_createSingleLineStringList mi.cFlags none (by decide) hcf),
    lines_line_append "ADDITIONAL_CXX_FLAGS := " (createSingleLineStringList mi.cxxFlags none) _ (by decide)
      (noNl_createSingleLineStringList mi.cxxFlags none (by decide) hcxf),
    lines_line_append "ADDITIONAL_AS_FLAGS := " (createSingleLineStringList mi.assemblyFlags none) _ (by decide)
      (noNl_createSingleLineStringList mi.assemblyFlags none (by decide) haf),
    lines_seg_append seg13 _ (by decide),
    lines_line_append "LINKER_SCRIPT := -T" mi.ldscript _ (by decide) hlds,
    lines_seg_append seg14 _ (by decide),
    lines_csl_append mi.libs (some "-l") "-l" rfl _ (by decide) hlb,
    lines_seg_append seg15 _ (by decide),
    lines_csl_append mi.libdir (some "-L") "-L" rfl _ (by decide) hld]

/-! ## Facts about assignment-line matching -/

/-- A case-insensitive mismatch with `key` occurring already within this
(possibly partial) line. -/
def hardMismatch : List Char → List Char → Bool
  | [], _ => false
  | _ :: _, [] => false
  | k :: ks, c :: cs => !(k.toLower = c.toLower) || hardMismatch ks cs

theorem ciStrip_none_of_hardMismatch : ∀ (key h v : List Char),
    hardMismatch key h = true → ciStrip key (h ++ v) = none
  | [], h, v, hm => by simp [hardMismatch] at hm
  | k :: ks, [], v, hm => by simp [hardMismatch] at hm
  | k :: ks, c :: cs, v, hm => by
    simp only [hardMismatch, Bool.or_eq_true] at hm
    by_cases he : k.toLower = c.toLower
    · have hm2 : hardMismatch ks cs = true := by
        rcases hm with h1 | h1
        · exact absurd he (by simpa using h1)
        · exact h1
      simp [ciStrip, he, ciStrip_none_of_hardMismatch ks cs v hm2]
    · simp [ciStrip, he]

theorem assignRhs_none_of_hardMismatch (key h v : List Char)
    (hm : hardMismatch key h = true) : assignRhs key (h ++ v) = none := by
  unfold assignRhs
  rw [ciStrip_none_of_hardMismatch key h v hm]
  rfl

theorem ciStrip_sub : ∀ (key l r : List Char), ciStrip key l = some r →
    ∃ pre, l = pre ++ r
  | [], l, r, h => ⟨[], by simpa [ciStrip] using Option.some.inj h⟩
  | k :: ks, [], r, h => by simp [ciStrip] at h
  | k :: ks, c :: cs, r, h => by
    by_cases he : k.toLower = c.toLower
    · simp only [ciStrip, if_pos he] at h
      obtain ⟨pre, hp⟩ := ciStrip_sub ks cs r h
      exact ⟨c :: pre, by rw [hp]; rfl⟩
    · simp [ciStrip, he] at h

theorem rhsAfterEq_eq_mem (l r : List Char) (h : rhsAfterEq l = some r) :
    '=' ∈ l := by
  have hsub := (List.dropWhile_sublist (p := isWsChar) (l := l)).subset
  unfold rhsAfterEq at h
  cases hd : l.dropWhile isWsChar with
  | nil => rw [hd] at h; exact absurd h (by simp [rhsCore])
  | cons c cs =>
    rw [hd] at h
    simp only [rhsCore] at h
    by_cases h1 : c = '='
    · subst h1
      exact hsub (hd ▸ List.mem_cons_self '=' cs)
    · rw [if_neg h1] at h
      by_cases h2 : c = ':' ∨ c = '+' ∨ c = '?'
      · rw [if_pos h2] at h
        cases cs with
        | nil => exact absurd h (by simp [rhsSym])
        | cons d ds =>
          simp only [rhsSym] at h
          by_cases h3 : d = '='
          · subst h3
            exact hsub (hd ▸ List.mem_cons_of_mem c (List.mem_cons_self '=' ds))
          · rw [if_neg h3] at h
            exact absurd h (by simp)
      · rw [if_neg h2] at h
        exact absurd h (by simp)

theorem assignRhs_none_of_no_eq (key l : List Char) (h : '=' ∉ l) :
    assignRhs key l = none := by
  unfold assignRhs
  cases hc : ciStrip key l with
  | none => rfl
  | some r =>
    show (some r).bind rhsAfterEq = none
    rw [Option.some_bind]
    cases hr : rhsAfterEq r with
    | none => rfl
    | some s =>
      exfalso
      obtain ⟨pre, hp⟩ := ciStrip_sub key l r hc
      exact h (hp ▸ List.mem_append_right pre (rhsAfterEq_eq_mem r s hr))

/-! ## Trimming and continuation-collection facts -/

theorem dropWhile_eq_self_of_head {p : Char → Bool} {c : Char} {l : List Char}
    (h : p c = false) : List.dropWhile p (c :: l) = c :: l := by
  simp [List.dropWhile_cons, h]

theorem head_not_of_dropWhile_eq_self {p : Char → Bool} {c : Char} {l : List Char}
    (h : List.dropWhile p (c :: l) = c :: l) : p c = false := by
  by_cases hc : p c = true
  · rw [List.dropWhile_cons, if_pos hc] at h
    have hlen := (List.dropWhile_sublist (p := p) (l := l)).length_le
    rw [h] at hlen
    simp at hlen
  · simpa using hc

theorem trimChars_parts {l : List Char} (h : trimChars l = l) :
    List.dropWhile isWsChar l = l ∧
    List.dropWhile isWsChar l.reverse = l.reverse := by
  have h1 : (List.dropWhile isWsChar l).length ≤ l.length :=
    (List.dropWhile_sublist (p := isWsChar) (l := l)).length_le
  have h2 : (List.dropWhile isWsChar (List.dropWhile isWsChar l).reverse).length ≤
      (List.dropWhile isWsChar l).length := by
    have hx := (List.dropWhile_sublist (p := isWsChar)
      (l := (List.dropWhile isWsChar l).reverse)).length_le
    simpa using hx
  have hlen : (trimChars l).length = l.length := by rw [h]
  have hlen2 : (trimChars l).length =
      (List.dropWhile isWsChar (List.dropWhile isWsChar l).reverse).length := by
    unfold trimChars
    simp
  have ha : (List.dropWhile isWsChar l).length = l.length := by omega
  have haa : List.dropWhile isWsChar l = l :=
    (List.dropWhile_sublist (p := isWsChar) (l := l)).eq_of_length ha
  refine ⟨haa, ?_⟩
  have hb : (List.dropWhile isWsChar l.reverse).length = l.reverse.length := by
    rw [haa] at hlen2
    simp only [List.length_reverse]
    omega
  exact (List.dropWhile_sublist (p := isWsChar) (l := l.reverse)).eq_of_length hb

/-- A list with no leading/trailing whitespace keeps its value under `trimChars`
after a whitespace-free prefix is prepended and a single trailing space is
added. -/
theorem trimChars_pfx_entry (pre e : List Char)
    (hp : ∀ c ∈ pre, isWsChar c = false)
    (he1 : e ≠ []) (he2 : trimChars e = e) :
    trimChars (pre ++ e) = pre ++ e ∧
    trimChars (pre ++ e ++ [' ']) = pre ++ e := by
  obtain ⟨hL, hR⟩ := trimChars_parts he2
  have hrevne : e.reverse ≠ [] := by simpa using he1
  obtain ⟨rc, rl, hrev⟩ : ∃ rc rl, e.reverse = rc :: rl := by
    cases hre : e.reverse with
    | nil => exact absurd hre hrevne
    | cons a b => exact ⟨a, b, rfl⟩
  have hrc : isWsChar rc = false :=
    head_not_of_dropWhile_eq_self (by rw [← hrev]; exact hR)
  have hLfull : List.dropWhile isWsChar (pre ++ e) = pre ++ e := by
    cases pre with
    | nil => simpa using hL
    | cons c cs =>
      exact dropWhile_eq_self_of_head (hp c (List.mem_cons_self c cs))
  have hRfull : List.dropWhile isWsChar (pre ++ e).reverse = (pre ++ e).reverse := by
    rw [List.reverse_append, hrev]
    exact dropWhile_eq_self_of_head hrc
  constructor
  · unfold trimChars
    rw [hLfull, hRfull]
    simp
  · unfold trimChars
    have hstep : List.dropWhile isWsChar (pre ++ e ++ [' ']) = pre ++ e ++ [' '] := by
      cases pre with
      | nil =>
        simp only [List.nil_append] at hL ⊢
        cases he : e with
        | nil => exact absurd he he1
        | cons a b =>
          rw [he] at hL
          have hhead := head_not_of_dropWhile_eq_self hL
          rw [List.cons_append]
          exact dropWhile_eq_self_of_head hhead
      | cons c cs =>
        rw [List.cons_append, List.cons_append]
        exact dropWhile_eq_self_of_head (hp c (List.mem_cons_self c cs))
    rw [hstep, List.reverse_append,
      show ([' '] : List Char).reverse = [' '] from rfl, List.singleton_append,
      List.dropWhile_cons, if_pos (by decide), hRfull]
    simp

theorem lastIsBackslash_concat (w : List Char) (c : Char) :
    lastIsBackslash (w ++ [c]) = decide (c = '\\') := by
  unfold lastIsBackslash
  rw [List.getLast?_concat]

theorem lastIsBackslash_entry (pre e : List Char) (he1 : e ≠ [])
    (he2 : '\\' ∉ e) : lastIsBackslash (pre ++ e) = false := by
  obtain ⟨rc, rl, hrev⟩ : ∃ rc rl, e.reverse = rc :: rl := by
    cases hre : e.reverse with
    | nil => exact absurd (by simpa using hre) he1
    | cons a b => exact ⟨a, b, rfl⟩
  have he : e = rl.reverse ++ [rc] := by
    have hc := congrArg List.reverse hrev
    simpa using hc
  have hrc : rc ∈ e := by
    rw [he]
    exact List.mem_append_right _ (List.mem_singleton_self rc)
  have hne : ¬ rc = '\\' := fun hc => he2 (hc ▸ hrc)
  rw [he, ← List.append_assoc, lastIsBackslash_concat]
  simpa using hne

theorem entryOf_marker (pre e : List Char)
    (hp : ∀ c ∈ pre, isWsChar c = false)
    (he1 : e ≠ []) (he2 : trimChars e = e) :
    entryOf (pre ++ e ++ [' ', '\\']) = pre ++ e := by
  have hassoc : pre ++ e ++ [' ', '\\'] = (pre ++ e ++ [' ']) ++ ['\\'] := by
    simp
  have h1 : lastIsBackslash (pre ++ e ++ [' ', '\\']) = true := by
    rw [hassoc, lastIsBackslash_concat]
    decide
  have h2 : (pre ++ e ++ [' ', '\\']).dropLast = pre ++ e ++ [' '] := by
    rw [hassoc]
    exact List.dropLast_concat
  unfold entryOf
  rw [h1, if_pos rfl, h2]
  exact (trimChars_pfx_entry pre e hp he1 he2).2

theorem entryOf_last (pre e : List Char)
    (hp : ∀ c ∈ pre, isWsChar c = false)
    (he1 : e ≠ []) (he2 : trimChars e = e) (he3 : '\\' ∉ e) :
    entryOf (pre ++ e) = pre ++ e := by
  unfold entryOf
  rw [lastIsBackslash_entry pre e he1 he3, if_neg (by simp)]
  exact (trimChars_pfx_entry pre e hp he1 he2).1

theorem collectRaw_csl (pfx : List Char) :
    ∀ (L : List String) (junk : List (List Char)),
    (∀ e ∈ L, e.data ≠ [] ∧ '\\' ∉ e.data) → L ≠ [] →
    collectRaw (cslLines pfx (L.map String.data) ++ junk) =
      cslLines pfx (L.map String.data)
  | [], _, _, hne => absurd rfl hne
  | [e], junk, hL, _ => by
    have hbs : lastIsBackslash (pfx ++ e.data) = false :=
      lastIsBackslash_entry pfx e.data (hL e (List.mem_singleton_self e)).1
        (hL e (List.mem_singleton_self e)).2
    simp only [List.map_cons, List.map_nil, cslLines, List.cons_append,
      List.nil_append, collectRaw, hbs]
    simp
  | e :: f :: L, junk, hL, _ => by
    have ih := collectRaw_csl pfx (f :: L) junk
      (fun x hx => hL x (List.mem_cons_of_mem e hx)) (by simp)
    have hbs : lastIsBackslash (pfx ++ e.data ++ [' ', '\\']) = true := by
      rw [show pfx ++ e.data ++ [' ', '\\'] = (pfx ++ e.data ++ [' ']) ++ ['\\']
        from by simp, lastIsBackslash_concat]
      decide
    simp only [List.map_cons, cslLines, List.cons_append, collectRaw, hbs,
      if_pos]
    exact congrArg (List.cons _) ih

/-! ## Line-list form of the extractors -/

/-- `extractMultiLineInfo` with the document already split into lines. -/
def extractFromLines (key : List Char) (lines : List (List Char)) : List String :=
  (findAssign key lines).elim []
    (fun x =>
      if lastIsBackslash x.1 then
        (((collectRaw x.2.2).map entryOf).filter (fun e => e ≠ [])).map
          (fun e => String.mk e)
      else [])

theorem extractMultiLineInfo_eq (name information : String) :
    extractMultiLineInfo name information =
      extractFromLines name.data (splitOnChar '\n' information.data) := by
  unfold extractMultiLineInfo extractFromLines
  cases findAssign name.data (splitOnChar '\n' information.data) with
  | none => rfl
  | some x => rfl

/-- `extractlibraries` with the document already split into lines. -/
def extractlibsFromLines (lines : List (List Char)) : List String :=
  (findAssign ("libraries" : String).data lines).elim []
    (fun x =>
      ((((x.2.1 :: (if lastIsBackslash x.1 then collectRaw x.2.2 else [])).map
            wsTokens).flatten).filter
          (fun t => leadsWith ("-l" : String).data t)).map (fun t => String.mk t))

theorem extractlibraries_eq (information : String) :
    extractlibraries information =
      extractlibsFromLines (splitOnChar '\n' information.data) := by
  unfold extractlibraries extractlibsFromLines
  cases findAssign ("libraries" : String).data (splitOnChar '\n' information.data) with
  | none => rfl
  | some x => rfl

/-! ## Locating the assignment line -/

theorem findAssign_cons_some {key l r : List Char}
    (h : assignRhs key l = some r) (R : List (List Char)) :
    findAssign key (l :: R) = some (l, r, R) := by
  simp [findAssign, h]

theorem findAssign_cons_none {key l : List Char}
    (h : assignRhs key l = none) (R : List (List Char)) :
    findAssign key (l :: R) = findAssign key R := by
  simp [findAssign, h]

theorem head_append_some {A : Type} {l t : List A} {x : A} (h : l.head? = some x) :
    (l ++ t).head? = some x := by
  cases l with
  | nil => simp at h
  | cons a b => simpa using h

def noAsn (key : List Char) (ls : List (List Char)) : Bool :=
  ls.all (fun l => (assignRhs key l).isNone)

theorem skip_of_all (key : List Char) (ls : List (List Char))
    (h : noAsn key ls = true) : ∀ l ∈ ls, assignRhs key l = none := by
  intro l hl
  have hx := (List.all_eq_true.mp h) l hl
  simpa [Option.isNone_iff_eq_none] using hx

theorem findAssign_append_last (key : List Char) {S I : List (List Char)}
    {a : List Char} (hs : S = I ++ [a]) (hI : ∀ l ∈ I, assignRhs key l = none)
    (r : List Char) (ha : assignRhs key a = some r) (R : List (List Char)) :
    findAssign key (S ++ R) = some (a, r, R) := by
  subst hs
  rw [List.append_assoc, List.singleton_append, findAssign_skip _ hI,
    findAssign_cons_some ha]

/-! ## Skipping the spliced entry blocks -/

theorem mem_cslLines {pfx : List Char} : ∀ {M : List (List Char)} {l : List Char},
    l ∈ cslLines pfx M → ∃ e ∈ M, l = pfx ++ e ++ [' ', '\\'] ∨ l = pfx ++ e
  | [], l, h => by simp [cslLines] at h
  | [e], l, h => by
    simp only [cslLines, List.mem_singleton] at h
    exact ⟨e, List.mem_singleton_self e, Or.inr h⟩
  | e :: f :: M, l, h => by
    rw [show cslLines pfx (e :: f :: M) =
      (pfx ++ e ++ [' ', '\\']) :: cslLines pfx (f :: M) from rfl] at h
    rcases List.mem_cons.mp h with h | h
    · exact ⟨e, List.mem_cons_self e (f :: M), Or.inl h⟩
    · obtain ⟨x, hx, hor⟩ := mem_cslLines h
      exact ⟨x, List.mem_cons_of_mem e hx, hor⟩

theorem csl_skip_dash (key : List Char) (hk : hardMismatch key ['-'] = true)
    (p' : List Char) (M : List (List Char)) :
    ∀ l ∈ cslLines ('-' :: p') M, assignRhs key l = none := by
  intro l hl
  obtain ⟨e, _, hor⟩ := mem_cslLines hl
  rcases hor with h | h
  · rw [h, show ('-' :: p') ++ e ++ [' ', '\\'] =
      ['-'] ++ (p' ++ e ++ [' ', '\\']) from by simp]
    exact assignRhs_none_of_hardMismatch key ['-'] _ hk
  · rw [h, show ('-' :: p') ++ e = ['-'] ++ (p' ++ e) from by simp]
    exact assignRhs_none_of_hardMismatch key ['-'] _ hk

theorem csl_skip_str (key : List Char) (pfxS : String) (p' : List Char)
    (hp : pfxS.data = '-' :: p') (hk : hardMismatch key ['-'] = true)
    (M : List (List Char)) :
    ∀ l ∈ cslLines pfxS.data M, assignRhs key l = none := by
  rw [hp]
  exact csl_skip_dash key hk p' M

theorem csl_skip_noeq (key pfx : List Char) (hpfx : '=' ∉ pfx)
    (M : List (List Char)) (hM : ∀ e ∈ M, '=' ∉ e) :
    ∀ l ∈ cslLines pfx M, assignRhs key l = none := by
  intro l hl
  obtain ⟨e, he, hor⟩ := mem_cslLines hl
  apply assignRhs_none_of_no_eq
  rcases hor with h | h
  · rw [h]
    intro hm
    rcases List.mem_append.mp hm with hm | hm
    · rcases List.mem_append.mp hm with hm | hm
      exacts [hpfx hm, hM e he hm]
    · simp at hm
  · rw [h]
    intro hm
    rcases List.mem_append.mp hm with hm | hm
    exacts [hpfx hm, hM e he hm]

/-! ## Evaluating the collected entry block -/

theorem collectMap_csl (pfx : List Char) (hp : ∀ c ∈ pfx, isWsChar c = false) :
    ∀ (L : List String),
    (∀ e ∈ L, e.data ≠ [] ∧ '\\' ∉ e.data ∧ trimChars e.data = e.data) →
    (cslLines pfx (L.map String.data)).map entryOf =
      L.map (fun e => pfx ++ e.data)
  | [], _ => rfl
  | [e], hL => by
    obtain ⟨h1, h2, h3⟩ := hL e (List.mem_singleton_self e)
    simp only [List.map_cons, List.map_nil, cslLines]
    rw [entryOf_last pfx e.data hp h1 h3 h2]
  | e :: f :: L, hL => by
    obtain ⟨h1, h2, h3⟩ := hL e (List.mem_cons_self e (f :: L))
    have ih := collectMap_csl pfx hp (f :: L)
      (fun x hx => hL x (List.mem_cons_of_mem e hx))
    simp only [List.map_cons] at ih ⊢
    rw [show cslLines pfx (e.data :: f.data :: List.map String.data L) =
      (pfx ++ e.data ++ [' ', '\\']) :: cslLines pfx (f.data :: List.map String.data L)
      from rfl]
    rw [List.map_cons, entryOf_marker pfx e.data hp h1 h3, ih]

theorem filter_map_ne_nil (pfx : List Char) (L : List String)
    (h : ∀ e ∈ L, e.data ≠ []) :
    (L.map (fun e => pfx ++ e.data)).filter (fun e => e ≠ []) =
      L.map (fun e => pfx ++ e.data) := by
  rw [List.filter_eq_self]
  intro a ha
  obtain ⟨e, he, rfl⟩ := List.mem_map.mp ha
  have h1 := h e he
  simp [h1]

/-- The value of a well-formed spliced multi-line block: every entry comes back
as prefix-plus-entry, in spliced order. -/
theorem multiTail (pfx : List Char) (hp : ∀ c ∈ pfx, isWsChar c = false)
    (L : List String) (B : List (List Char))
    (hL : ∀ e ∈ L, e.data ≠ [] ∧ '\\' ∉ e.data ∧ trimChars e.data = e.data)
    (hB : B.head? = some []) :
    (((collectRaw (cslLines pfx (L.map String.data) ++ B)).map entryOf).filter
        (fun e => e ≠ [])).map (fun e => String.mk e) =
      L.map (fun e => String.mk (pfx ++ e.data)) := by
  cases L with
  | nil =>
    cases B with
    | nil => simp at hB
    | cons b B2 =>
      have hb : b = [] := by simpa using hB
      subst hb
      rfl
  | cons e L2 =>
    rw [collectRaw_csl pfx (e :: L2) B
      (fun x hx => ⟨(hL x hx).1, (hL x hx).2.1⟩) (by simp)]
    rw [collectMap_csl pfx hp (e :: L2) hL]
    rw [filter_map_ne_nil pfx (e :: L2) (fun x hx => (hL x hx).1)]
    rw [List.map_map]
    rfl

/-! ## Whitespace tokenization of the libraries block -/

theorem splitOnWs_nows : ∀ (t : List Char), (∀ c ∈ t, isWsChar c = false) →
    splitOnWs t = [t]
  | [], _ => rfl
  | c :: t, h => by
    have ih := splitOnWs_nows t (fun x hx => h x (List.mem_cons_of_mem c hx))
    simp [splitOnWs, h c (List.mem_cons_self c t), ih]

theorem splitOnWs_ws_append : ∀ (t z : List Char),
    (∀ c ∈ t, isWsChar c = false) →
    splitOnWs (t ++ ' ' :: z) = t :: splitOnWs z
  | [], z, _ => rfl
  | c :: t, z, h => by
    have ih := splitOnWs_ws_append t z (fun x hx => h x (List.mem_cons_of_mem c hx))
    simp [splitOnWs, h c (List.mem_cons_self c t), ih]

theorem wsTokens_marker (t : List Char) (ht : t ≠ [])
    (h : ∀ c ∈ t, isWsChar c = false) :
    wsTokens (t ++ [' ', '\\']) = [t, ['\\']] := by
  unfold wsTokens
  rw [show t ++ [' ', '\\'] = t ++ ' ' :: ['\\'] from rfl,
    splitOnWs_ws_append t ['\\'] h,
    show splitOnWs ['\\'] = [['\\']] from rfl]
  simp [List.filter_cons, ht]

theorem wsTokens_token (t : List Char) (ht : t ≠ [])
    (h : ∀ c ∈ t, isWsChar c = false) : wsTokens t = [t] := by
  unfold wsTokens
  rw [splitOnWs_nows t h]
  simp [List.filter_cons, ht]

theorem nows_dashl (e : String) (h2 : ∀ c ∈ e.data, isWsChar c = false) :
    ∀ c ∈ ['-', 'l'] ++ e.data, isWsChar c = false := by
  intro c hc
  rcases List.mem_append.mp hc with hc | hc
  · have hc2 : c ∈ ['-', 'l'] := hc
    rcases List.mem_cons.mp hc2 with rfl | hc3
    · rfl
    · rw [List.mem_singleton.mp hc3]
      rfl
  · exact h2 c hc

theorem libs_csl_tokens :
    ∀ (L : List String),
    (∀ e ∈ L, e.data ≠ [] ∧ (∀ c ∈ e.data, isWsChar c = false)) →
    (((cslLines ['-', 'l'] (L.map String.data)).map wsTokens).flatten).filter
        (fun t => leadsWith ['-', 'l'] t) =
      L.map (fun e => ['-', 'l'] ++ e.data)
  | [], _ => rfl
  | [e], hL => by
    obtain ⟨h1, h2⟩ := hL e (List.mem_singleton_self e)
    have hnw := nows_dashl e h2
    simp only [List.map_cons, List.map_nil, cslLines]
    rw [wsTokens_token _ (by simp [h1]) hnw]
    simp only [List.flatten_cons, List.flatten_nil, List.append_nil,
      List.filter_cons, leadsWith_self_append]
    rfl
  | e :: f :: L, hL => by
    obtain ⟨h1, h2⟩ := hL e (List.mem_cons_self e (f :: L))
    have ih := libs_csl_tokens (f :: L) (fun x hx => hL x (List.mem_cons_of_mem e hx))
    have hnw := nows_dashl e h2
    simp only [List.map_cons] at ih ⊢
    rw [show cslLines ['-', 'l'] (e.data :: f.data :: List.map String.data L) =
      (['-', 'l'] ++ e.data ++ [' ', '\\']) ::
        cslLines ['-', 'l'] (f.data :: List.map String.data L) from rfl]
    rw [List.map_cons, wsTokens_marker _ (by simp [h1]) hnw]
    simp only [List.flatten_cons, List.filter_append] at ih ⊢
    rw [show List.filter (fun t => leadsWith ['-', 'l'] t)
        [['-', 'l'] ++ e.data, ['\\']] =
      [['-', 'l'] ++ e.data] from by
        have hkeep : leadsWith ['-', 'l'] ('-' :: 'l' :: e.data) = true :=
          leadsWith_self_append ['-', 'l'] e.data
        simp [List.filter_cons, hkeep,
          show leadsWith ['-', 'l'] ['\\'] = false from rfl]]
    rw [ih]
    simp

/-- The value of the well-formed spliced libraries block. -/
theorem libsTail (r : List Char)
    (hr : (wsTokens r).filter (fun t => leadsWith ("-l" : String).data t) = [])
    (L : List String) (B : List (List Char))
    (hL : ∀ e ∈ L, e.data ≠ [] ∧ '\\' ∉ e.data ∧ (∀ c ∈ e.data, isWsChar c = false))
    (hB : B.head? = some []) :
    ((((r :: collectRaw (cslLines ("-l" : String).data (L.map String.data) ++ B)).map
          wsTokens).flatten).filter
        (fun t => leadsWith ("-l" : String).data t)).map (fun t => String.mk t) =
      L.map (fun e => String.mk (("-l" : String).data ++ e.data)) := by
  cases L with
  | nil =>
    cases B with
    | nil => simp at hB
    | cons b B2 =>
      have hb : b = [] := by simpa using hB
      subst hb
      rw [show cslLines ("-l" : String).data (List.map String.data []) ++ ([] :: B2) =
        [] :: B2 from rfl]
      rw [show collectRaw (([] : List Char) :: B2) = [[]] from rfl]
      simp only [List.map_cons, List.map_nil, List.flatten_cons, List.flatten_nil,
        List.append_nil, List.filter_append, hr]
      rw [show wsTokens ([] : List Char) = [] from rfl]
      simp
  | cons e L2 =>
    rw [collectRaw_csl ("-l" : String).data (e :: L2) B
      (fun x hx => ⟨(hL x hx).1, (hL x hx).2.1⟩) (by simp)]
    rw [show ("-l" : String).data = ['-', 'l'] from rfl] at hr ⊢
    rw [List.map_cons, List.flatten_cons, List.filter_append, hr,
      List.nil_append]
    rw [libs_csl_tokens (e :: L2) (fun x hx => ⟨(hL x hx).1, (hL x hx).2.2⟩)]
    rw [List.map_map]
    rfl

/-! ## Undoing the prefixes -/

theorem removePrefixes_map_mk (p : String) (L : List String) :
    removePrefixes (L.map (fun e => String.mk (p.data ++ e.data))) p = L := by
  unfold removePrefixes
  rw [List.map_map]
  have hid : ∀ e ∈ L,
      ((fun e => if leadsWith p.data e.data then String.mk (e.data.drop p.data.length)
          else e) ∘ (fun e => String.mk (p.data ++ e.data))) e = id e := by
    intro e _
    show (if leadsWith p.data (String.mk (p.data ++ e.data)).data then
        String.mk ((String.mk (p.data ++ e.data)).data.drop p.data.length)
      else String.mk (p.data ++ e.data)) = id e
    rw [show (String.mk (p.data ++ e.data)).data = p.data ++ e.data from rfl,
      leadsWith_self_append, if_pos rfl, List.drop_left]
    rfl
  rw [List.map_congr_left hid, List.map_id]

/-! ## Reducing a located extraction -/

theorem extractFromLines_found (key : List Char) (lines : List (List Char))
    (a r : List Char) (R : List (List Char))
    (hf : findAssign key lines = some (a, r, R)) (hbs : lastIsBackslash a = true) :
    extractFromLines key lines =
      (((collectRaw R).map entryOf).filter (fun e => e ≠ [])).map
        (fun e => String.mk e) := by
  unfold extractFromLines
  rw [hf, Option.elim]
  show (if lastIsBackslash a then
      (((collectRaw R).map entryOf).filter (fun e => e ≠ [])).map
        (fun e => String.mk e)
    else []) = _
  rw [hbs]
  simp

theorem extractlibsFromLines_found (lines : List (List Char))
    (a r : List Char) (R : List (List Char))
    (hf : findAssign ("libraries" : String).data lines = some (a, r, R))
    (hbs : lastIsBackslash a = true) :
    extractlibsFromLines lines =
      ((((r :: collectRaw R).map wsTokens).flatten).filter
          (fun t => leadsWith ("-l" : String).data t)).map (fun t => String.mk t) := by
  unfold extractlibsFromLines
  rw [hf, Option.elim]
  show ((((r :: (if lastIsBackslash a then collectRaw R else [])).map
        wsTokens).flatten).filter
      (fun t => leadsWith ("-l" : String).data t)).map (fun t => String.mk t) = _
  rw [hbs]
  simp

/-! ## Well-formed build descriptions -/

/-- An entry that survives the generated continuation-line format: nonempty, on
one line, no stray continuation marker, and no surrounding whitespace. -/
def GoodEntry (e : String) : Prop :=
  e.data ≠ [] ∧ '\n' ∉ e.data ∧ '\\' ∉ e.data ∧ trimChars e.data = e.data

instance (e : String) : Decidable (GoodEntry e) := by
  unfold GoodEntry
  infer_instance

/-- A source entry additionally contains no `=`, so a bare (prefix-free) source
line is never mistaken for an assignment. -/
def GoodSource (e : String) : Prop := GoodEntry e ∧ '=' ∉ e.data

instance (e : String) : Decidable (GoodSource e) := by
  unfold GoodSource
  infer_instance

/-- A library entry is additionally whitespace-free, as the libraries block is
re-tokenized on whitespace by the extractor. -/
def GoodLib (e : String) : Prop :=
  GoodEntry e ∧ ∀ c ∈ e.data, isWsChar c = false

instance (e : String) : Decidable (GoodLib e) := by
  unfold GoodLib
  infer_instance

/-- A `MakeInfo` whose spliced scalar values stay on one line and whose list
entries are well formed. -/
def WellFormed (mi : MakeInfo) : Prop :=
  '\n' ∉ mi.target.data ∧ '\n' ∉ mi.optimization.data ∧ '\n' ∉ mi.cpu.data ∧
  '\n' ∉ mi.fpu.data ∧ '\n' ∉ mi.floatAbi.data ∧ '\n' ∉ mi.ldscript.data ∧
  (∀ e ∈ mi.cFlags, '\n' ∉ e.data) ∧ (∀ e ∈ mi.cxxFlags, '\n' ∉ e.data) ∧
  (∀ e ∈ mi.assemblyFlags, '\n' ∉ e.data) ∧
  (∀ e ∈ mi.cDefs, GoodEntry e) ∧ (∀ e ∈ mi.cxxDefs, GoodEntry e) ∧
  (∀ e ∈ mi.asDefs, GoodEntry e) ∧
  (∀ e ∈ mi.cSources, GoodSource e) ∧ (∀ e ∈ mi.cxxSources, GoodSource e) ∧
  (∀ e ∈ mi.asmSources, GoodSource e) ∧
  (∀ e ∈ mi.cIncludes, GoodEntry e) ∧ (∀ e ∈ mi.libs, GoodLib e) ∧
  (∀ e ∈ mi.libdir, GoodEntry e)

instance (mi : MakeInfo) : Decidable (WellFormed mi) := by
  unfold WellFormed
  infer_instance

/-! ## The template segments, line by line -/

/-- The lines of `seg0` as a literal list. -/
def linesSeg0 : List (List Char) :=
  (["##########################################################################################################################",
    "# File automatically-generated by STM32forVSCode",
    "##########################################################################################################################",
    "",
    "# ------------------------------------------------",
    "# Makefile used by STM32 For VSCode",
    "# WARNING: This file can be overwritten when project settings change",
    "# This Makefile can be used for CI/CD purposes to use it please make sure",
    "# you setup an environment file with the following name: .stm32env.",
    "# This file is sourced at the start of this Makefile and will be used to set",
    "# compiler paths and other tooling paths.",
    "# Do note that most variables can also be overwritten when invoking make",
    "# e.g to change the optimization flags",
    "# make -j 16 -f STM32Make.make DEBUG=0 OPTIMIZATION=-Os",
    "#",
    "# ChangeLog :",
    "#\t2017-02-10 - Several enhancements + project update mode",
    "#   2015-07-22 - first version",
    "#   2023-06-16 - Added .stm32env file inclusion",
    "#   2023-07-14 - Added file directory in the build folder",
    "#\t\t\t\t\t\t\t - Added debug and release build options",
    "#\t\t\t\t\t\t\t - Added multi platform support",
    "#\t\t\t\t\t\t\t - Added help target",
    "#\t\t\t\t\t\t\t - Added more documentation",
    "# ------------------------------------------------",
    "",
    "######################################",
    "# Environment Variables",
    "######################################",
    "# Imports the environment file in which the compiler and other tooling is set",
    "# for the build machine.",
    "# This can also be used to overwrite some makefile variables",
    "include .stm32env",
    "",
    "######################################",
    "# Target ",
    "######################################",
    "# This is the name of the embedded target which will be build",
    "# The final file name will also have debug or release appended to it."] : List String).map String.data

/-- The lines of `seg1` as a literal list. -/
def linesSeg1 : List (List Char) :=
  (["",
    "#######################################",
    "# Build directories",
    "#######################################",
    "# Build path can be overwritten when calling make or setting the environment variable",
    "# in .stm32env",
    "",
    "BUILD_DIRECTORY ?= build",
    "",
    "",
    "######################################",
    "# Optimization",
    "######################################",
    "# Optimization is switched based upon the DEBUG variable. If set to 1",
    "# it will be build in debug mode with the Og optimization flag (optimized for debugging).",
    "# If set to 0 (false) then by default the variable is used in the configuration yaml",
    "# This can also be overwritten using the environment variable or by overwriting it",
    "# by calling make with the OPTIMIZATION variable e.g.: ",
    "# make -f STM32Make.make -j 16  OPTIMIZATION=Os",
    "",
    "# variable which determines if it is a debug build",
    "DEBUG ?= 1",
    "",
    "# debug flags when debug is defined"] : List String).map String.data

/-- The lines of `seg2` as a literal list. -/
def linesSeg2 : List (List Char) :=
  (["",
    "ifeq ($(DEBUG),1)",
    "\t# Sets debugging optimization -Og and the debug information output",
    "\tOPTIMIZATION_FLAGS += -Og -g -gdwarf -ggdb",
    "\tTARGET += -debug ",
    "\tRELEASE_DIRECTORY ?= $(BUILD_DIRECTORY)/debug",
    "else",
    "\tOPTIMIZATION_FLAGS += $(OPTIMIZATION)",
    "\tTARGET += -release",
    "\tRELEASE_DIRECTORY ?= $(BUILD_DIRECTORY)/release",
    "endif",
    "",
    "######################################",
    "# Definitions",
    "######################################",
    "",
    "# C definitions",
    "C_DEFINITIONS =  \\"] : List String).map String.data

/-- The lines of `seg3` as a literal list. -/
def linesSeg3 : List (List Char) :=
  (["",
    "",
    "# C++ definitions",
    "CXX_DEFINITIONS =  \\"] : List String).map String.data

/-- The lines of `seg4` as a literal list. -/
def linesSeg4 : List (List Char) :=
  (["",
    "",
    "# Assembly definitions",
    "AS_DEFINITIONS =  \\"] : List String).map String.data

/-- The lines of `seg5` as a literal list. -/
def linesSeg5 : List (List Char) :=
  (["",
    "",
    "######################################",
    "# Source Files",
    "######################################",
    "",
    "",
    "# C sources",
    "C_SOURCES +=  \\"] : List String).map String.data

/-- The lines of `seg6` as a literal list. -/
def linesSeg6 : List (List Char) :=
  (["",
    "",
    "CXX_SOURCES += \\"] : List String).map String.data

/-- The lines of `seg7` as a literal list. -/
def linesSeg7 : List (List Char) :=
  (["",
    "",
    "# ASM sources",
    "AS_SOURCES +=  \\"] : List String).map String.data

/-- The lines of `seg8` as a literal list. -/
def linesSeg8 : List (List Char) :=
  (["",
    "",
    "",
    "######################################",
    "# Include Directories",
    "######################################",
    "# AS includes",
    "AS_INCLUDES = \\",
    "",
    "# C includes",
    "C_INCLUDES =  \\"] : List String).map String.data

/-- The lines of `seg9` as a literal list. -/
def linesSeg9 : List (List Char) :=
  (["",
    "",
    "",
    "######################################",
    "# Target System Flags",
    "######################################",
    "# The specific flags for the target system",
    "# This sets things like hardware floating point and",
    "# which version a specific Cortex-M processor is.",
    "",
    "# cpu"] : List String).map String.data

/-- The lines of `seg10` as a literal list. -/
def linesSeg10 : List (List Char) :=
  (["",
    "# fpu"] : List String).map String.data

/-- The lines of `seg11` as a literal list. -/
def linesSeg11 : List (List Char) :=
  (["",
    "# float-abi"] : List String).map String.data

/-- The lines of `seg12` as a literal list. -/
def linesSeg12 : List (List Char) :=
  (["",
    "# mcu",
    "MCU_FLAGS = $(CPU) -mthumb $(FPU) $(FLOAT-ABI)",
    "",
    "",
    "######################################",
    "# C and CPP Flags",
    "######################################",
    "",
    "# additional flags provided by the STM32 for VSCode configuration file"] : List String).map String.data

/-- The lines of `seg13` as a literal list. -/
def linesSeg13 : List (List Char) :=
  (["",
    "# Provides dependency information about header files",
    "# This is used to recompile when a source file depends on",
    "# information from a header file",
    "DEPENDENCY_FLAGS = -MMD -MP -MF\"$(@:%.o=%.d)\"",
    "",
    "# Output a list file for the compiled source file.",
    "# This is a representative of the source code in assembly",
    "ASSEMBLER_LIST_OUTPUT_FLAG = -Wa,-a,-ad,-alms=$(@D)/$($(notdir $@):%.o=%.lst)",
    "",
    "# Combining the compilation flags with language specific flags and MCU specific flags",
    "C_FLAGS = \\",
    "\t$(MCU_FLAGS) \\",
    "\t$(C_DEFINITIONS) \\",
    "\t$(C_INCLUDES) \\",
    "\t$(OPTIMIZATION_FLAGS) \\",
    "\t$(DEPENDENCY_FLAGS) \\",
    "\t$(ADDITIONAL_C_FLAGS) \\",
    "\t$(ASSEMBLER_LIST_OUTPUT_FLAG)",
    "",
    "CXX_FLAGS = \\ ",
    "\t$(MCU_FLAGS) \\",
    "\t$(CXX_DEFINITIONS) \\",
    "\t$(C_INCLUDES) \\",
    "\t$(OPTIMIZATION_FLAGS) \\",
    "\t$(DEPENDENCY_FLAGS) \\",
    "\t$(ADDITIONAL_CXX_FLAGS) \\",
    "\t$(ASSEMBLER_LIST_OUTPUT_FLAG)",
    "",
    "AS_FLAGS = $(C_FLAGS) $(AS_DEFINITIONS) $(ADDITIONAL_AS_FLAGS)",
    "",
    "######################################",
    "# Linker Flags",
    "######################################",
    "# linker script. This script will determine where certain sections will",
    "# be place in memory.",
    "# For a good reference look at: https://blog.thea.codes/the-most-thoroughly-commented-linker-script/"] : List String).map String.data

/-- The lines of `seg14` as a literal list. -/
def linesSeg14 : List (List Char) :=
  (["",
    "# libraries",
    "LIBRARIES := \\"] : List String).map String.data

/-- The lines of `seg15` as a literal list. -/
def linesSeg15 : List (List Char) :=
  (["",
    "",
    "# library directories",
    "LIBRARY_DIRECTORIES := \\"] : List String).map String.data

set_option maxRecDepth 65536 in
set_option maxHeartbeats 1000000 in
theorem segW_eq_0 : segW seg0 = linesSeg0 := by decide

set_option maxRecDepth 65536 in
set_option maxHeartbeats 1000000 in
theorem segW_eq_1 : segW seg1 = linesSeg1 := by decide

set_option maxRecDepth 65536 in
set_option maxHeartbeats 1000000 in
theorem segW_eq_2 : segW seg2 = linesSeg2 := by decide

set_option maxRecDepth 65536 in
set_option maxHeartbeats 1000000 in
theorem segW_eq_3 : segW seg3 = linesSeg3 := by decide

set_option maxRecDepth 65536 in
set_option maxHeartbeats 1000000 in
theorem segW_eq_4 : segW seg4 = linesSeg4 := by decide

set_option maxRecDepth 65536 in
set_option maxHeartbeats 1000000 in
theorem segW_eq_5 : segW seg5 = linesSeg5 := by decide

set_option maxRecDepth 65536 in
set_option maxHeartbeats 1000000 in
theorem segW_eq_6 : segW seg6 = linesSeg6 := by decide

set_option maxRecDepth 65536 in
set_option maxHeartbeats 1000000 in
theorem segW_eq_7 : segW seg7 = linesSeg7 := by decide

set_option maxRecDepth 65536 in
set_option maxHeartbeats 1000000 in
theorem segW_eq_8 : segW seg8 = linesSeg8 := by decide

set_option maxRecDepth 65536 in
set_option maxHeartbeats 1000000 in
theorem segW_eq_9 : segW seg9 = linesSeg9 := by decide

set_option maxRecDepth 65536 in
set_option maxHeartbeats 1000000 in
theorem segW_eq_10 : segW seg10 = linesSeg10 := by decide

set_option maxRecDepth 65536 in
set_option maxHeartbeats 1000000 in
theorem segW_eq_11 : segW seg11 = linesSeg11 := by decide

set_option maxRecDepth 65536 in
set_option maxHeartbeats 1000000 in
theorem segW_eq_12 : segW seg12 = linesSeg12 := by decide

set_option maxRecDepth 65536 in
set_option maxHeartbeats 1000000 in
theorem segW_eq_13 : segW seg13 = linesSeg13 := by decide

set_option maxRecDepth 65536 in
set_option maxHeartbeats 1000000 in
theorem segW_eq_14 : segW seg14 = linesSeg14 := by decide

set_option maxRecDepth 65536 in
set_option maxHeartbeats 1000000 in
theorem segW_eq_15 : segW seg15 = linesSeg15 := by decide

/-! ## Projections of the whole-document extraction -/

theorem emi_cSources (information : String) :
    (extractMakefileInfo information).cSources =
      extractMultiLineInfo "C_SOURCES" information := rfl

theorem emi_cxxSources (information : String) :
    (extractMakefileInfo information).cxxSources =
      extractMultiLineInfo "CXX_SOURCES" information := rfl

theorem emi_assemblySources (information : String) :
    (extractMakefileInfo information).assemblySources =
      extractMultiLineInfo "AS_SOURCES" information := rfl

theorem emi_cIncludeDirectories (information : String) :
    (extractMakefileInfo information).cIncludeDirectories =
      extractMultiLineInfo "C_INCLUDES" information := rfl

theorem emi_cDefinitions (information : String) :
    (extractMakefileInfo information).cDefinitions =
      extractMultiLineInfo "C_DEFINITIONS" information := rfl

theorem emi_cxxDefinitions (information : String) :
    (extractMakefileInfo information).cxxDefinitions =
      extractMultiLineInfo "CXX_DEFINITIONS" information := rfl

theorem emi_assemblyDefinitions (information : String) :
    (extractMakefileInfo information).assemblyDefinitions =
      extractMultiLineInfo "AS_DEFINITIONS" information := rfl

theorem emi_libraries (information : String) :
    (extractMakefileInfo information).libraries =
      extractlibraries information := rfl

theorem emi_libraryDirectories (information : String) :
    (extractMakefileInfo information).libraryDirectories =
      extractMultiLineInfo "LIBRARY_DIRECTORIES" information := rfl

set_option maxRecDepth 65536 in
set_option maxHeartbeats 100000000 in
/-- C1: the generation/extraction round-trip. For every well-formed `MakeInfo`,
extracting the Makefile text generated from it recovers, after prefix
normalization with `removePrefixes`, exactly the source, definition, include
and library sets of the original (order-insensitive, i.e. as membership
equivalence): the raw source buckets come back as-is, and the `-I`/`-D`/`-l`/
`-L` prefixed families come back once the prefix is stripped. -/
theorem extract_generate_roundtrip (mi : MakeInfo) (h : WellFormed mi) :
    (∀ x, x ∈ (extractMakefileInfo (createMakefile mi)).cSources ↔ x ∈ mi.cSources) ∧
    (∀ x, x ∈ (extractMakefileInfo (createMakefile mi)).cxxSources ↔ x ∈ mi.cxxSources) ∧
    (∀ x, x ∈ (extractMakefileInfo (createMakefile mi)).assemblySources ↔ x ∈ mi.asmSources) ∧
    (∀ x, x ∈ removePrefixes (extractMakefileInfo (createMakefile mi)).cIncludeDirectories "-I" ↔ x ∈ mi.cIncludes) ∧
    (∀ x, x ∈ removePrefixes (extractMakefileInfo (createMakefile mi)).cDefinitions "-D" ↔ x ∈ mi.cDefs) ∧
    (∀ x, x ∈ removePrefixes (extractMakefileInfo (createMakefile mi)).cxxDefinitions "-D" ↔ x ∈ mi.cxxDefs) ∧
    (∀ x, x ∈ removePrefixes (extractMakefileInfo (createMakefile mi)).assemblyDefinitions "-D" ↔ x ∈ mi.asDefs) ∧
    (∀ x, x ∈ removePrefixes (extractMakefileInfo (createMakefile mi)).libraries "-l" ↔ x ∈ mi.libs) ∧
    (∀ x, x ∈ removePrefixes (extractMakefileInfo (createMakefile mi)).libraryDirectories "-L" ↔ x ∈ mi.libdir) := by
  obtain ⟨htgt, hopt, hcpu, hfpu, hfab, hlds, hcf, hcxf, haf, hcD, hcxD, haD,
    hcS, hcxS, haS, hcI, hlb, hld⟩ := h
  have hlines := lines_createMakefile mi htgt hopt hcpu hfpu hfab hlds hcf hcxf haf
    (fun e he => (hcD e he).2.1) (fun e he => (hcxD e he).2.1)
    (fun e he => (haD e he).2.1)
    (fun e he => (hcS e he).1.2.1) (fun e he => (hcxS e he).1.2.1)
    (fun e he => (haS e he).1.2.1)
    (fun e he => (hcI e he).2.1) (fun e he => (hlb e he).1.2.1)
    (fun e he => (hld e he).2.1)
  rw [segW_eq_0, segW_eq_1, segW_eq_2, segW_eq_3, segW_eq_4, segW_eq_5,
    segW_eq_6, segW_eq_7, segW_eq_8, segW_eq_9, segW_eq_10, segW_eq_11,
    segW_eq_12, segW_eq_13, segW_eq_14, segW_eq_15] at hlines
  have gcD : ∀ e ∈ sortStr (uniqFirst mi.cDefs), GoodEntry e :=
    fun e he => hcD e (mem_uniqFirst.mp (mem_sortStr.mp he))
  have gcxD : ∀ e ∈ sortStr (uniqFirst mi.cxxDefs), GoodEntry e :=
    fun e he => hcxD e (mem_uniqFirst.mp (mem_sortStr.mp he))
  have gaD : ∀ e ∈ sortStr (uniqFirst mi.asDefs), GoodEntry e :=
    fun e he => haD e (mem_uniqFirst.mp (mem_sortStr.mp he))
  have gcS : ∀ e ∈ sortStr (uniqFirst mi.cSources), GoodSource e :=
    fun e he => hcS e (mem_uniqFirst.mp (mem_sortStr.mp he))
  have gcxS : ∀ e ∈ sortStr (uniqFirst mi.cxxSources), GoodSource e :=
    fun e he => hcxS e (mem_uniqFirst.mp (mem_sortStr.mp he))
  have gaS : ∀ e ∈ sortStr (uniqFirst mi.asmSources), GoodSource e :=
    fun e he => haS e (mem_uniqFirst.mp (mem_sortStr.mp he))
  have gcI : ∀ e ∈ sortStr (uniqFirst mi.cIncludes), GoodEntry e :=
    fun e he => hcI e (mem_uniqFirst.mp (mem_sortStr.mp he))
  have glb : ∀ e ∈ sortStr (uniqFirst mi.libs), GoodLib e :=
    fun e he => hlb e (mem_uniqFirst.mp (mem_sortStr.mp he))
  have gld : ∀ e ∈ sortStr (uniqFirst mi.libdir), GoodEntry e :=
    fun e he => hld e (mem_uniqFirst.mp (mem_sortStr.mp he))
  have hLcD : ∀ e ∈ sortStr (uniqFirst mi.cDefs),
      e.data ≠ [] ∧ '\\' ∉ e.data ∧ trimChars e.data = e.data :=
    fun e he => ⟨(gcD e he).1, (gcD e he).2.2.1, (gcD e he).2.2.2⟩
  have hLcxD : ∀ e ∈ sortStr (uniqFirst mi.cxxDefs),
      e.data ≠ [] ∧ '\\' ∉ e.data ∧ trimChars e.data = e.data :=
    fun e he => ⟨(gcxD e he).1, (gcxD e he).2.2.1, (gcxD e he).2.2.2⟩
  have hLaD : ∀ e ∈ sortStr (uniqFirst mi.asDefs),
      e.data ≠ [] ∧ '\\' ∉ e.data ∧ trimChars e.data = e.data :=
    fun e he => ⟨(gaD e he).1, (gaD e he).2.2.1, (gaD e he).2.2.2⟩
  have hLcS : ∀ e ∈ sortStr (uniqFirst mi.cSources),
      e.data ≠ [] ∧ '\\' ∉ e.data ∧ trimChars e.data = e.data :=
    fun e he => ⟨(gcS e he).1.1, (gcS e he).1.2.2.1, (gcS e he).1.2.2.2⟩
  have hLcxS : ∀ e ∈ sortStr (uniqFirst mi.cxxSources),
      e.data ≠ [] ∧ '\\' ∉ e.data ∧ trimChars e.data = e.data :=
    fun e he => ⟨(gcxS e he).1.1, (gcxS e he).1.2.2.1, (gcxS e he).1.2.2.2⟩
  have hLaS : ∀ e ∈ sortStr (uniqFirst mi.asmSources),
      e.data ≠ [] ∧ '\\' ∉ e.data ∧ trimChars e.data = e.data :=
    fun e he => ⟨(gaS e he).1.1, (gaS e he).1.2.2.1, (gaS e he).1.2.2.2⟩
  have hLcI : ∀ e ∈ sortStr (uniqFirst mi.cIncludes),
      e.data ≠ [] ∧ '\\' ∉ e.data ∧ trimChars e.data = e.data :=
    fun e he => ⟨(gcI e he).1, (gcI e he).2.2.1, (gcI e he).2.2.2⟩
  have hLlb : ∀ e ∈ sortStr (uniqFirst mi.libs),
      e.data ≠ [] ∧ '\\' ∉ e.data ∧ (∀ c ∈ e.data, isWsChar c = false) :=
    fun e he => ⟨(glb e he).1.1, (glb e he).1.2.2.1, (glb e he).2⟩
  have hLld : ∀ e ∈ sortStr (uniqFirst mi.libdir),
      e.data ≠ [] ∧ '\\' ∉ e.data ∧ trimChars e.data = e.data :=
    fun e he => ⟨(gld e he).1, (gld e he).2.2.1, (gld e he).2.2.2⟩
  have hMcS : ∀ x ∈ (List.map String.data (sortStr (uniqFirst mi.cSources))), '=' ∉ x := by
    intro x hx
    obtain ⟨e, he, rfl⟩ := List.mem_map.mp hx
    exact (gcS e he).2
  have hMcxS : ∀ x ∈ (List.map String.data (sortStr (uniqFirst mi.cxxSources))), '=' ∉ x := by
    intro x hx
    obtain ⟨e, he, rfl⟩ := List.mem_map.mp hx
    exact (gcxS e he).2
  have hMaS : ∀ x ∈ (List.map String.data (sortStr (uniqFirst mi.asmSources))), '=' ∉ x := by
    intro x hx
    obtain ⟨e, he, rfl⟩ := List.mem_map.mp hx
    exact (gaS e he).2
  have hfcS := congrArg (findAssign ("C_SOURCES" : String).data) hlines
  rw [findAssign_skip _ (skip_of_all ("C_SOURCES" : String).data linesSeg0 (by decide)),
      findAssign_cons_none (assignRhs_none_of_hardMismatch ("C_SOURCES" : String).data
      ("TARGET ?= " : String).data (mi.target).data (by decide)),
      findAssign_skip _ (skip_of_all ("C_SOURCES" : String).data linesSeg1 (by decide)),
      findAssign_cons_none (assignRhs_none_of_hardMismatch ("C_SOURCES" : String).data
      ("OPTIMIZATION ?= " : String).data (mi.optimization).data (by decide)),
      findAssign_skip _ (skip_of_all ("C_SOURCES" : String).data linesSeg2 (by decide)),
      findAssign_skip _ (csl_skip_str ("C_SOURCES" : String).data "-D" ['D'] rfl (by decide)
      (List.map String.data (sortStr (uniqFirst mi.cDefs)))),
      findAssign_skip _ (skip_of_all ("C_SOURCES" : String).data linesSeg3 (by decide)),
      findAssign_skip _ (csl_skip_str ("C_SOURCES" : String).data "-D" ['D'] rfl (by decide)
      (List.map String.data (sortStr (uniqFirst mi.cxxDefs)))),
      findAssign_skip _ (skip_of_all ("C_SOURCES" : String).data linesSeg4 (by decide)),
      findAssign_skip _ (csl_skip_str ("C_SOURCES" : String).data "-D" ['D'] rfl (by decide)
      (List.map String.data (sortStr (uniqFirst mi.asDefs)))),
      findAssign_append_last ("C_SOURCES" : String).data
      (show linesSeg5 = List.dropLast linesSeg5 ++ [("C_SOURCES +=  \\" : String).data]
        from by decide)
      (skip_of_all ("C_SOURCES" : String).data (List.dropLast linesSeg5) (by decide))
      ("  \\" : String).data (by decide)] at hfcS
  have hfcxS := congrArg (findAssign ("CXX_SOURCES" : String).data) hlines
  rw [findAssign_skip _ (skip_of_all ("CXX_SOURCES" : String).data linesSeg0 (by decide)),
      findAssign_cons_none (assignRhs_none_of_hardMismatch ("CXX_SOURCES" : String).data
      ("TARGET ?= " : String).data (mi.target).data (by decide)),
      findAssign_skip _ (skip_of_all ("CXX_SOURCES" : String).data linesSeg1 (by decide)),
      findAssign_cons_none (assignRhs_none_of_hardMismatch ("CXX_SOURCES" : String).data
      ("OPTIMIZATION ?= " : String).data (mi.optimization).data (by decide)),
      findAssign_skip _ (skip_of_all ("CXX_SOURCES" : String).data linesSeg2 (by decide)),
      findAssign_skip _ (csl_skip_str ("CXX_SOURCES" : String).data "-D" ['D'] rfl (by decide)
      (List.map String.data (sortStr (uniqFirst mi.cDefs)))),
      findAssign_skip _ (skip_of_all ("CXX_SOURCES" : String).data linesSeg3 (by decide)),
      findAssign_skip _ (csl_skip_str ("CXX_SOURCES" : String).data "-D" ['D'] rfl (by decide)
      (List.map String.data (sortStr (uniqFirst mi.cxxDefs)))),
      findAssign_skip _ (skip_of_all ("CXX_SOURCES" : String).data linesSeg4 (by decide)),
      findAssign_skip _ (csl_skip_str ("CXX_SOURCES" : String).data "-D" ['D'] rfl (by decide)
      (List.map String.data (sortStr (uniqFirst mi.asDefs)))),
      findAssign_skip _ (skip_of_all ("CXX_SOURCES" : String).data linesSeg5 (by decide)),
      findAssign_skip _ (csl_skip_noeq ("CXX_SOURCES" : String).data ("" : String).data (by decide)
      (List.map String.data (sortStr (uniqFirst mi.cSources))) hMcS),
      findAssign_append_last ("CXX_SOURCES" : String).data
      (show linesSeg6 = List.dropLast linesSeg6 ++ [("CXX_SOURCES += \\" : String).data]
        from by decide)
      (skip_of_all ("CXX_SOURCES" : String).data (List.dropLast linesSeg6) (by decide))
      (" \\" : String).data (by decide)] at hfcxS
  have hfaS := congrArg (findAssign ("AS_SOURCES" : String).data) hlines
  rw [findAssign_skip _ (skip_of_all ("AS_SOURCES" : String).data linesSeg0 (by decide)),
      findAssign_cons_none (assignRhs_none_of_hardMismatch ("AS_SOURCES" : String).data
      ("TARGET ?= " : String).data (mi.target).data (by decide)),
      findAssign_skip _ (skip_of_all ("AS_SOURCES" : String).data linesSeg1 (by decide)),
      findAssign_cons_none (assignRhs_none_of_hardMismatch ("AS_SOURCES" : String).data
      ("OPTIMIZATION ?= " : String).data (mi.optimization).data (by decide)),
      findAssign_skip _ (skip_of_all ("AS_SOURCES" : String).data linesSeg2 (by decide)),
      findAssign_skip _ (csl_skip_str ("AS_SOURCES" : String).data "-D" ['D'] rfl (by decide)
      (List.map String.data (sortStr (uniqFirst mi.cDefs)))),
      findAssign_skip _ (skip_of_all ("AS_SOURCES" : String).data linesSeg3 (by decide)),
      findAssign_skip _ (csl_skip_str ("AS_SOURCES" : String).data "-D" ['D'] rfl (by decide)
      (List.map String.data (sortStr (uniqFirst mi.cxxDefs)))),
      findAssign_skip _ (skip_of_all ("AS_SOURCES" : String).data linesSeg4 (by decide)),
      findAssign_skip _ (csl_skip_str ("AS_SOURCES" : String).data "-D" ['D'] rfl (by decide)
      (List.map String.data (sortStr (uniqFirst mi.asDefs)))),
      findAssign_skip _ (skip_of_all ("AS_SOURCES" : String).data linesSeg5 (by decide)),
      findAssign_skip _ (csl_skip_noeq ("AS_SOURCES" : String).data ("" : String).data (by decide)
      (List.map String.data (sortStr (uniqFirst mi.cSources))) hMcS),
      findAssign_skip _ (skip_of_all ("AS_SOURCES" : String).data linesSeg6 (by decide)),
      findAssign_skip _ (csl_skip_noeq ("AS_SOURCES" : String).data ("" : String).data (by decide)
      (List.map String.data (sortStr (uniqFirst mi.cxxSources))) hMcxS),
      findAssign_append_last ("AS_SOURCES" : String).data
      (show linesSeg7 = List.dropLast linesSeg7 ++ [("AS_SOURCES +=  \\" : String).data]
        from by decide)
      (skip_of_all ("AS_SOURCES" : String).data (List.dropLast linesSeg7) (by decide))
      ("  \\" : String).data (by decide)] at hfaS
  have hfcI := congrArg (findAssign ("C_INCLUDES" : String).data) hlines
  rw [findAssign_skip _ (skip_of_all ("C_INCLUDES" : String).data linesSeg0 (by decide)),
      findAssign_cons_none (assignRhs_none_of_hardMismatch ("C_INCLUDES" : String).data
      ("TARGET ?= " : String).data (mi.target).data (by decide)),
      findAssign_skip _ (skip_of_all ("C_INCLUDES" : String).data linesSeg1 (by decide)),
      findAssign_cons_none (assignRhs_none_of_hardMismatch ("C_INCLUDES" : String).data
      ("OPTIMIZATION ?= " : String).data (mi.optimization).data (by decide)),
      findAssign_skip _ (skip_of_all ("C_INCLUDES" : String).data linesSeg2 (by decide)),
      findAssign_skip _ (csl_skip_str ("C_INCLUDES" : String).data "-D" ['D'] rfl (by decide)
      (List.map String.data (sortStr (uniqFirst mi.cDefs)))),
      findAssign_skip _ (skip_of_all ("C_INCLUDES" : String).data linesSeg3 (by decide)),
      findAssign_skip _ (csl_skip_str ("C_INCLUDES" : String).data "-D" ['D'] rfl (by decide)
      (List.map String.data (sortStr (uniqFirst mi.cxxDefs)))),
      findAssign_skip _ (skip_of_all ("C_INCLUDES" : String).data linesSeg4 (by decide)),
      findAssign_skip _ (csl_skip_str ("C_INCLUDES" : String).data "-D" ['D'] rfl (by decide)
      (List.map String.data (sortStr (uniqFirst mi.asDefs)))),
      findAssign_skip _ (skip_of_all ("C_INCLUDES" : String).data linesSeg5 (by decide)),
      findAssign_skip _ (csl_skip_noeq ("C_INCLUDES" : String).data ("" : String).data (by decide)
      (List.map String.data (sortStr (uniqFirst mi.cSources))) hMcS),
      findAssign_skip _ (skip_of_all ("C_INCLUDES" : String).data linesSeg6 (by decide)),
      findAssign_skip _ (csl_skip_noeq ("C_INCLUDES" : String).data ("" : String).data (by decide)
      (List.map String.data (sortStr (uniqFirst mi.cxxSources))) hMcxS),
      findAssign_skip _ (skip_of_all ("C_INCLUDES" : String).data linesSeg7 (by decide)),
      findAssign_skip _ (csl_skip_noeq ("C_INCLUDES" : String).data ("" : String).data (by decide)
      (List.map String.data (sortStr (uniqFirst mi.asmSources))) hMaS),
      findAssign_append_last ("C_INCLUDES" : String).data
      (show linesSeg8 = List.dropLast linesSeg8 ++ [("C_INCLUDES =  \\" : String).data]
        from by decide)
      (skip_of_all ("C_INCLUDES" : String).data (List.dropLast linesSeg8) (by decide))
      ("  \\" : String).data (by decide)] at hfcI
  have hfcD := congrArg (findAssign ("C_DEFINITIONS" : String).data) hlines
  rw [findAssign_skip _ (skip_of_all ("C_DEFINITIONS" : String).data linesSeg0 (by decide)),
      findAssign_cons_none (assignRhs_none_of_hardMismatch ("C_DEFINITIONS" : String).data
      ("TARGET ?= " : String).data (mi.target).data (by decide)),
      findAssign_skip _ (skip_of_all ("C_DEFINITIONS" : String).data linesSeg1 (by decide)),
      findAssign_cons_none (assignRhs_none_of_hardMismatch ("C_DEFINITIONS" : String).data
      ("OPTIMIZATION ?= " : String).data (mi.optimization).data (by decide)),
      findAssign_append_last ("C_DEFINITIONS" : String).data
      (show linesSeg2 = List.dropLast linesSeg2 ++ [("C_DEFINITIONS =  \\" : String).data]
        from by decide)
      (skip_of_all ("C_DEFINITIONS" : String).data (List.dropLast linesSeg2) (by decide))
      ("  \\" : String).data (by decide)] at hfcD
  have hfcxD := congrArg (findAssign ("CXX_DEFINITIONS" : String).data) hlines
  rw [findAssign_skip _ (skip_of_all ("CXX_DEFINITIONS" : String).data linesSeg0 (by decide)),
      findAssign_cons_none (assignRhs_none_of_hardMismatch ("CXX_DEFINITIONS" : String).data
      ("TARGET ?= " : String).data (mi.target).data (by decide)),
      findAssign_skip _ (skip_of_all ("CXX_DEFINITIONS" : String).data linesSeg1 (by decide)),
      findAssign_cons_none (assignRhs_none_of_hardMismatch ("CXX_DEFINITIONS" : String).data
      ("OPTIMIZATION ?= " : String).data (mi.optimization).data (by decide)),
      findAssign_skip _ (skip_of_all ("CXX_DEFINITIONS" : String).data linesSeg2 (by decide)),
      findAssign_skip _ (csl_skip_str ("CXX_DEFINITIONS" : String).data "-D" ['D'] rfl (by decide)
      (List.map String.data (sortStr (uniqFirst mi.cDefs)))),
      findAssign_append_last ("CXX_DEFINITIONS" : String).data
      (show linesSeg3 = List.dropLast linesSeg3 ++ [("CXX_DEFINITIONS =  \\" : String).data]
        from by decide)
      (skip_of_all ("CXX_DEFINITIONS" : String).data (List.dropLast linesSeg3) (by decide))
      ("  \\" : String).data (by decide)] at hfcxD
  have hfaD := congrArg (findAssign ("AS_DEFINITIONS" : String).data) hlines
  rw [findAssign_skip _ (skip_of_all ("AS_DEFINITIONS" : String).data linesSeg0 (by decide)),
      findAssign_cons_none (assignRhs_none_of_hardMismatch ("AS_DEFINITIONS" : String).data
      ("TARGET ?= " : String).data (mi.target).data (by decide)),
      findAssign_skip _ (skip_of_all ("AS_DEFINITIONS" : String).data linesSeg1 (by decide)),
      findAssign_cons_none (assignRhs_none_of_hardMismatch ("AS_DEFINITIONS" : String).data
      ("OPTIMIZATION ?= " : String).data (mi.optimization).data (by decide)),
      findAssign_skip _ (skip_of_all ("AS_DEFINITIONS" : String).data linesSeg2 (by decide)),
      findAssign_skip _ (csl_skip_str ("AS_DEFINITIONS" : String).data "-D" ['D'] rfl (by decide)
      (List.map String.data (sortStr (uniqFirst mi.cDefs)))),
      findAssign_skip _ (skip_of_all ("AS_DEFINITIONS" : String).data linesSeg3 (by decide)),
      findAssign_skip _ (csl_skip_str ("AS_DEFINITIONS" : String).data "-D" ['D'] rfl (by decide)
      (List.map String.data (sortStr (uniqFirst mi.cxxDefs)))),
      findAssign_append_last ("AS_DEFINITIONS" : String).data
      (show linesSeg4 = List.dropLast linesSeg4 ++ [("AS_DEFINITIONS =  \\" : String).data]
        from by decide)
      (skip_of_all ("AS_DEFINITIONS" : String).data (List.dropLast linesSeg4) (by decide))
      ("  \\" : String).data (by decide)] at hfaD
  have hflb := congrArg (findAssign ("libraries" : String).data) hlines
  rw [findAssign_skip _ (skip_of_all ("libraries" : String).data linesSeg0 (by decide)),
      findAssign_cons_none (assignRhs_none_of_hardMismatch ("libraries" : String).data
      ("TARGET ?= " : String).data (mi.target).data (by decide)),
      findAssign_skip _ (skip_of_all ("libraries" : String).data linesSeg1 (by decide)),
      findAssign_cons_none (assignRhs_none_of_hardMismatch ("libraries" : String).data
      ("OPTIMIZATION ?= " : String).data (mi.optimization).data (by decide)),
      findAssign_skip _ (skip_of_all ("libraries" : String).data linesSeg2 (by decide)),
      findAssign_skip _ (csl_skip_str ("libraries" : String).data "-D" ['D'] rfl (by decide)
      (List.map String.data (sortStr (uniqFirst mi.cDefs)))),
      findAssign_skip _ (skip_of_all ("libraries" : String).data linesSeg3 (by decide)),
      findAssign_skip _ (csl_skip_str ("libraries" : String).data "-D" ['D'] rfl (by decide)
      (List.map String.data (sortStr (uniqFirst mi.cxxDefs)))),
      findAssign_skip _ (skip_of_all ("libraries" : String).data linesSeg4 (by decide)),
      findAssign_skip _ (csl_skip_str ("libraries" : String).data "-D" ['D'] rfl (by decide)
      (List.map String.data (sortStr (uniqFirst mi.asDefs)))),
      findAssign_skip _ (skip_of_all ("libraries" : String).data linesSeg5 (by decide)),
      findAssign_skip _ (csl_skip_noeq ("libraries" : String).data ("" : String).data (by decide)
      (List.map String.data (sortStr (uniqFirst mi.cSources))) hMcS),
      findAssign_skip _ (skip_of_all ("libraries" : String).data linesSeg6 (by decide)),
      findAssign_skip _ (csl_skip_noeq ("libraries" : String).data ("" : String).data (by decide)
      (List.map String.data (sortStr (uniqFirst mi.cxxSources))) hMcxS),
      findAssign_skip _ (skip_of_all ("libraries" : String).data linesSeg7 (by decide)),
      findAssign_skip _ (csl_skip_noeq ("libraries" : String).data ("" : String).data (by decide)
      (List.map String.data (sortStr (uniqFirst mi.asmSources))) hMaS),
      findAssign_skip _ (skip_of_all ("libraries" : String).data linesSeg8 (by decide)),
      findAssign_skip _ (csl_skip_str ("libraries" : String).data "-I" ['I'] rfl (by decide)
      (List.map String.data (sortStr (uniqFirst mi.cIncludes)))),
      findAssign_skip _ (skip_of_all ("libraries" : String).data linesSeg9 (by decide)),
      findAssign_cons_none (assignRhs_none_of_hardMismatch ("libraries" : String).data
      ("CPU = " : String).data (createPrefixWhenNoneExists mi.cpu "-mcpu=").data (by decide)),
      findAssign_skip _ (skip_of_all ("libraries" : String).data linesSeg10 (by decide)),
      findAssign_cons_none (assignRhs_none_of_hardMismatch ("libraries" : String).data
      ("FPU = " : String).data (createPrefixWhenNoneExists mi.fpu "-mfpu=").data (by decide)),
      findAssign_skip _ (skip_of_all ("libraries" : String).data linesSeg11 (by decide)),
      findAssign_cons_none (assignRhs_none_of_hardMismatch ("libraries" : String).data
      ("FLOAT-ABI = " : String).data (createPrefixWhenNoneExists mi.floatAbi "-mfloat-abi=").data (by decide)),
      findAssign_skip _ (skip_of_all ("libraries" : String).data linesSeg12 (by decide)),
      findAssign_cons_none (assignRhs_none_of_hardMismatch ("libraries" : String).data
      ("ADDITIONAL_C_FLAGS := " : String).data (createSingleLineStringList mi.cFlags none).data (by decide)),
      findAssign_cons_none (assignRhs_none_of_hardMismatch ("libraries" : String).data
      ("ADDITIONAL_CXX_FLAGS := " : String).data (createSingleLineStringList mi.cxxFlags none).data (by decide)),
      findAssign_cons_none (assignRhs_none_of_hardMismatch ("libraries" : String).data
      ("ADDITIONAL_AS_FLAGS := " : String).data (createSingleLineStringList mi.assemblyFlags none).data (by decide)),
      findAssign_skip _ (skip_of_all ("libraries" : String).data linesSeg13 (by decide)),
      findAssign_cons_none (assignRhs_none_of_hardMismatch ("libraries" : String).data
      ("LINKER_SCRIPT := -T" : String).data (mi.ldscript).data (by decide)),
      findAssign_append_last ("libraries" : String).data
      (show linesSeg14 = List.dropLast linesSeg14 ++ [("LIBRARIES := \\" : String).data]
        from by decide)
      (skip_of_all ("libraries" : String).data (List.dropLast linesSeg14) (by decide))
      (" \\" : String).data (by decide)] at hflb
  have hfld := congrArg (findAssign ("LIBRARY_DIRECTORIES" : String).data) hlines
  rw [findAssign_skip _ (skip_of_all ("LIBRARY_DIRECTORIES" : String).data linesSeg0 (by decide)),
      findAssign_cons_none (assignRhs_none_of_hardMismatch ("LIBRARY_DIRECTORIES" : String).data
      ("TARGET ?= " : String).data (mi.target).data (by decide)),
      findAssign_skip _ (skip_of_all ("LIBRARY_DIRECTORIES" : String).data linesSeg1 (by decide)),
      findAssign_cons_none (assignRhs_none_of_hardMismatch ("LIBRARY_DIRECTORIES" : String).data
      ("OPTIMIZATION ?= " : String).data (mi.optimization).data (by decide)),
      findAssign_skip _ (skip_of_all ("LIBRARY_DIRECTORIES" : String).data linesSeg2 (by decide)),
      findAssign_skip _ (csl_skip_str ("LIBRARY_DIRECTORIES" : String).data "-D" ['D'] rfl (by decide)
      (List.map String.data (sortStr (uniqFirst mi.cDefs)))),
      findAssign_skip _ (skip_of_all ("LIBRARY_DIRECTORIES" : String).data linesSeg3 (by decide)),
      findAssign_skip _ (csl_skip_str ("LIBRARY_DIRECTORIES" : String).data "-D" ['D'] rfl (by decide)
      (List.map String.data (sortStr (uniqFirst mi.cxxDefs)))),
      findAssign_skip _ (skip_of_all ("LIBRARY_DIRECTORIES" : String).data linesSeg4 (by decide)),
      findAssign_skip _ (csl_skip_str ("LIBRARY_DIRECTORIES" : String).data "-D" ['D'] rfl (by decide)
      (List.map String.data (sortStr (uniqFirst mi.asDefs)))),
      findAssign_skip _ (skip_of_all ("LIBRARY_DIRECTORIES" : String).data linesSeg5 (by decide)),
      findAssign_skip _ (csl_skip_noeq ("LIBRARY_DIRECTORIES" : String).data ("" : String).data (by decide)
      (List.map String.data (sortStr (uniqFirst mi.cSources))) hMcS),
      findAssign_skip _ (skip_of_all ("LIBRARY_DIRECTORIES" : String).data linesSeg6 (by decide)),
      findAssign_skip _ (csl_skip_noeq ("LIBRARY_DIRECTORIES" : String).data ("" : String).data (by decide)
      (List.map String.data (sortStr (uniqFirst mi.cxxSources))) hMcxS),
      findAssign_skip _ (skip_of_all ("LIBRARY_DIRECTORIES" : String).data linesSeg7 (by decide)),
      findAssign_skip _ (csl_skip_noeq ("LIBRARY_DIRECTORIES" : String).data ("" : String).data (by decide)
      (List.map String.data (sortStr (uniqFirst mi.asmSources))) hMaS),
      findAssign_skip _ (skip_of_all ("LIBRARY_DIRECTORIES" : String).data linesSeg8 (by decide)),
      findAssign_skip _ (csl_skip_str ("LIBRARY_DIRECTORIES" : String).data "-I" ['I'] rfl (by decide)
      (List.map String.data (sortStr (uniqFirst mi.cIncludes)))),
      findAssign_skip _ (skip_of_all ("LIBRARY_DIRECTORIES" : String).data linesSeg9 (by decide)),
      findAssign_cons_none (assignRhs_none_of_hardMismatch ("LIBRARY_DIRECTORIES" : String).data
      ("CPU = " : String).data (createPrefixWhenNoneExists mi.cpu "-mcpu=").data (by decide)),
      findAssign_skip _ (skip_of_all ("LIBRARY_DIRECTORIES" : String).data linesSeg10 (by decide)),
      findAssign_cons_none (assignRhs_none_of_hardMismatch ("LIBRARY_DIRECTORIES" : String).data
      ("FPU = " : String).data (createPrefixWhenNoneExists mi.fpu "-mfpu=").data (by decide)),
      findAssign_skip _ (skip_of_all ("LIBRARY_DIRECTORIES" : String).data linesSeg11 (by decide)),
      findAssign_cons_none (assignRhs_none_of_hardMismatch ("LIBRARY_DIRECTORIES" : String).data
      ("FLOAT-ABI = " : String).data (createPrefixWhenNoneExists mi.floatAbi "-mfloat-abi=").data (by decide)),
      findAssign_skip _ (skip_of_all ("LIBRARY_DIRECTORIES" : String).data linesSeg12 (by decide)),
      findAssign_cons_none (assignRhs_none_of_hardMismatch ("LIBRARY_DIRECTORIES" : String).data
      ("ADDITIONAL_C_FLAGS := " : String).data (createSingleLineStringList mi.cFlags none).data (by decide)),
      findAssign_cons_none (assignRhs_none_of_hardMismatch ("LIBRARY_DIRECTORIES" : String).data
      ("ADDITIONAL_CXX_FLAGS := " : String).data (createSingleLineStringList mi.cxxFlags none).data (by decide)),
      findAssign_cons_none (assignRhs_none_of_hardMismatch ("LIBRARY_DIRECTORIES" : String).data
      ("ADDITIONAL_AS_FLAGS := " : String).data (createSingleLineStringList mi.assemblyFlags none).data (by decide)),
      findAssign_skip _ (skip_of_all ("LIBRARY_DIRECTORIES" : String).data linesSeg13 (by decide)),
      findAssign_cons_none (assignRhs_none_of_hardMismatch ("LIBRARY_DIRECTORIES" : String).data
      ("LINKER_SCRIPT := -T" : String).data (mi.ldscript).data (by decide)),
      findAssign_skip _ (skip_of_all ("LIBRARY_DIRECTORIES" : String).data linesSeg14 (by decide)),
      findAssign_skip _ (csl_skip_str ("LIBRARY_DIRECTORIES" : String).data "-l" ['l'] rfl (by decide)
      (List.map String.data (sortStr (uniqFirst mi.libs)))),
      findAssign_append_last ("LIBRARY_DIRECTORIES" : String).data
      (show linesSeg15 = List.dropLast linesSeg15 ++ [("LIBRARY_DIRECTORIES := \\" : String).data]
        from by decide)
      (skip_of_all ("LIBRARY_DIRECTORIES" : String).data (List.dropLast linesSeg15) (by decide))
      (" \\" : String).data (by decide)] at hfld
  have ecS : (extractMakefileInfo (createMakefile mi)).cSources =
      sortStr (uniqFirst mi.cSources) :=
    (emi_cSources (createMakefile mi)).trans
    ((extractMultiLineInfo_eq "C_SOURCES" (createMakefile mi)).trans
      ((extractFromLines_found _ _ _ _ _ hfcS (by decide)).trans
        ((multiTail ("" : String).data (by decide) (sortStr (uniqFirst mi.cSources)) _ hLcS
            (head_append_some (show List.head? linesSeg6 = some [] from by decide))).trans
          ((List.map_congr_left
            (fun e _ => (rfl : String.mk (("" : String).data ++ e.data) = id e))).trans
            (List.map_id _)))))
  have ecxS : (extractMakefileInfo (createMakefile mi)).cxxSources =
      sortStr (uniqFirst mi.cxxSources) :=
    (emi_cxxSources (createMakefile mi)).trans
    ((extractMultiLineInfo_eq "CXX_SOURCES" (createMakefile mi)).trans
      ((extractFromLines_found _ _ _ _ _ hfcxS (by decide)).trans
        ((multiTail ("" : String).data (by decide) (sortStr (uniqFirst mi.cxxSources)) _ hLcxS
            (head_append_some (show List.head? linesSeg7 = some [] from by decide))).trans
          ((List.map_congr_left
            (fun e _ => (rfl : String.mk (("" : String).data ++ e.data) = id e))).trans
            (List.map_id _)))))
  have eaS : (extractMakefileInfo (createMakefile mi)).assemblySources =
      sortStr (uniqFirst mi.asmSources) :=
    (emi_assemblySources (createMakefile mi)).trans
    ((extractMultiLineInfo_eq "AS_SOURCES" (createMakefile mi)).trans
      ((extractFromLines_found _ _ _ _ _ hfaS (by decide)).trans
        ((multiTail ("" : String).data (by decide) (sortStr (uniqFirst mi.asmSources)) _ hLaS
            (head_append_some (show List.head? linesSeg8 = some [] from by decide))).trans
          ((List.map_congr_left
            (fun e _ => (rfl : String.mk (("" : String).data ++ e.data) = id e))).trans
            (List.map_id _)))))
  have ecI : removePrefixes (extractMakefileInfo (createMakefile mi)).cIncludeDirectories "-I" =
      sortStr (uniqFirst mi.cIncludes) :=
    (congrArg (fun l => removePrefixes l "-I")
      ((emi_cIncludeDirectories (createMakefile mi)).trans
      ((extractMultiLineInfo_eq "C_INCLUDES" (createMakefile mi)).trans
        ((extractFromLines_found _ _ _ _ _ hfcI (by decide)).trans
          (multiTail ("-I" : String).data (by decide) (sortStr (uniqFirst mi.cIncludes)) _ hLcI
            (head_append_some (show List.head? linesSeg9 = some [] from by decide))))))).trans
      (removePrefixes_map_mk "-I" _)
  have ecD : removePrefixes (extractMakefileInfo (createMakefile mi)).cDefinitions "-D" =
      sortStr (uniqFirst mi.cDefs) :=
    (congrArg (fun l => removePrefixes l "-D")
      ((emi_cDefinitions (createMakefile mi)).trans
      ((extractMultiLineInfo_eq "C_DEFINITIONS" (createMakefile mi)).trans
        ((extractFromLines_found _ _ _ _ _ hfcD (by decide)).trans
          (multiTail ("-D" : String).data (by decide) (sortStr (uniqFirst mi.cDefs)) _ hLcD
            (head_append_some (show List.head? linesSeg3 = some [] from by decide))))))).trans
      (removePrefixes_map_mk "-D" _)
  have ecxD : removePrefixes (extractMakefileInfo (createMakefile mi)).cxxDefinitions "-D" =
      sortStr (uniqFirst mi.cxxDefs) :=
    (congrArg (fun l => removePrefixes l "-D")
      ((emi_cxxDefinitions (createMakefile mi)).trans
      ((extractMultiLineInfo_eq "CXX_DEFINITIONS" (createMakefile mi)).trans
        ((extractFromLines_found _ _ _ _ _ hfcxD (by decide)).trans
          (multiTail ("-D" : String).data (by decide) (sortStr (uniqFirst mi.cxxDefs)) _ hLcxD
            (head_append_some (show List.head? linesSeg4 = some [] from by decide))))))).trans
      (removePrefixes_map_mk "-D" _)
  have eaD : removePrefixes (extractMakefileInfo (createMakefile mi)).assemblyDefinitions "-D" =
      sortStr (uniqFirst mi.asDefs) :=
    (congrArg (fun l => removePrefixes l "-D")
      ((emi_assemblyDefinitions (createMakefile mi)).trans
      ((extractMultiLineInfo_eq "AS_DEFINITIONS" (createMakefile mi)).trans
        ((extractFromLines_found _ _ _ _ _ hfaD (by decide)).trans
          (multiTail ("-D" : String).data (by decide) (sortStr (uniqFirst mi.asDefs)) _ hLaD
            (head_append_some (show List.head? linesSeg5 = some [] from by decide))))))).trans
      (removePrefixes_map_mk "-D" _)
  have elb : removePrefixes (extractMakefileInfo (createMakefile mi)).libraries "-l" =
      sortStr (uniqFirst mi.libs) :=
    (congrArg (fun l => removePrefixes l "-l")
      ((emi_libraries (createMakefile mi)).trans
      ((extractlibraries_eq (createMakefile mi)).trans
        ((extractlibsFromLines_found _ _ _ _ hflb (by decide)).trans
          (libsTail (" \\" : String).data (by decide) (sortStr (uniqFirst mi.libs)) _ hLlb
            (head_append_some (show List.head? linesSeg15 = some [] from by decide))))))).trans
      (removePrefixes_map_mk "-l" _)
  have eld : removePrefixes (extractMakefileInfo (createMakefile mi)).libraryDirectories "-L" =
      sortStr (uniqFirst mi.libdir) :=
    (congrArg (fun l => removePrefixes l "-L")
      ((emi_libraryDirectories (createMakefile mi)).trans
      ((extractMultiLineInfo_eq "LIBRARY_DIRECTORIES" (createMakefile mi)).trans
        ((extractFromLines_found _ _ _ _ _ hfld (by decide)).trans
          (multiTail ("-L" : String).data (by decide) (sortStr (uniqFirst mi.libdir)) _ hLld
            (show (splitOnChar '\n' (tailT mi).data).head? = some [] from rfl)))))).trans
      (removePrefixes_map_mk "-L" _)
  exact ⟨fun x => Iff.trans (Iff.of_eq (congrArg (fun l => x ∈ l) ecS))
      (Iff.trans mem_sortStr mem_uniqFirst),
    fun x => Iff.trans (Iff.of_eq (congrArg (fun l => x ∈ l) ecxS))
      (Iff.trans mem_sortStr mem_uniqFirst),
    fun x => Iff.trans (Iff.of_eq (congrArg (fun l => x ∈ l) eaS))
      (Iff.trans mem_sortStr mem_uniqFirst),
    fun x => Iff.trans (Iff.of_eq (congrArg (fun l => x ∈ l) ecI))
      (Iff.trans mem_sortStr mem_uniqFirst),
    fun x => Iff.trans (Iff.of_eq (congrArg (fun l => x ∈ l) ecD))
      (Iff.trans mem_sortStr mem_uniqFirst),
    fun x => Iff.trans (Iff.of_eq (congrArg (fun l => x ∈ l) ecxD))
      (Iff.trans mem_sortStr mem_uniqFirst),
    fun x => Iff.trans (Iff.of_eq (congrArg (fun l => x ∈ l) eaD))
      (Iff.trans mem_sortStr mem_uniqFirst),
    fun x => Iff.trans (Iff.of_eq (congrArg (fun l => x ∈ l) elb))
      (Iff.trans mem_sortStr mem_uniqFirst),
    fun x => Iff.trans (Iff.of_eq (congrArg (fun l => x ∈ l) eld))
      (Iff.trans mem_sortStr mem_uniqFirst)⟩

/-- A concrete well-formed build description exercising every spliced list. -/
def roundtripInput : MakeInfo :=
  { target := "firmware"
    optimization := "-O2"
    cpu := "cortex-m7"
    fpu := "fpv5-d16"
    floatAbi := "hard"
    ldscript := "flash.ld"
    targetMCU := "stm32h7x"
    cSources := ["main.c", "lib/util.c"]
    cxxSources := ["app.cpp"]
    asmSources := ["startup_stm32.s"]
    cIncludes := ["Inc", "Drivers/Inc"]
    libs := ["m", "nosys"]
    libdir := ["Drivers/lib"]
    cDefs := ["USE_HAL_DRIVER", "STM32H743xx"]
    cxxDefs := ["CPPDEF"]
    asDefs := ["ASDEF"]
    cFlags := ["-Wall"]
    cxxFlags := []
    assemblyFlags := []
    ldFlags := []
    tools := {}
    customMakefileRules := none }

/-- Witness for C1: the round-trip equality at a concrete well-formed input. -/
theorem extract_generate_roundtrip_witness :
    WellFormed roundtripInput ∧
    ((∀ x, x ∈ (extractMakefileInfo (createMakefile roundtripInput)).cSources ↔ x ∈ roundtripInput.cSources) ∧
    (∀ x, x ∈ (extractMakefileInfo (createMakefile roundtripInput)).cxxSources ↔ x ∈ roundtripInput.cxxSources) ∧
    (∀ x, x ∈ (extractMakefileInfo (createMakefile roundtripInput)).assemblySources ↔ x ∈ roundtripInput.asmSources) ∧
    (∀ x, x ∈ removePrefixes (extractMakefileInfo (createMakefile roundtripInput)).cIncludeDirectories "-I" ↔ x ∈ roundtripInput.cIncludes) ∧
    (∀ x, x ∈ removePrefixes (extractMakefileInfo (createMakefile roundtripInput)).cDefinitions "-D" ↔ x ∈ roundtripInput.cDefs) ∧
    (∀ x, x ∈ removePrefixes (extractMakefileInfo (createMakefile roundtripInput)).cxxDefinitions "-D" ↔ x ∈ roundtripInput.cxxDefs) ∧
    (∀ x, x ∈ removePrefixes (extractMakefileInfo (createMakefile roundtripInput)).assemblyDefinitions "-D" ↔ x ∈ roundtripInput.asDefs) ∧
    (∀ x, x ∈ removePrefixes (extractMakefileInfo (createMakefile roundtripInput)).libraries "-l" ↔ x ∈ roundtripInput.libs) ∧
    (∀ x, x ∈ removePrefixes (extractMakefileInfo (createMakefile roundtripInput)).libraryDirectories "-L" ↔ x ∈ roundtripInput.libdir)) :=
  ⟨by decide, extract_generate_roundtrip roundtripInput (by decide)⟩

/-- Witness for C6 at concrete inputs. -/
theorem createPrefixWhenNoneExists_spec_witness :
    createPrefixWhenNoneExists "cortex-m7" "-mcpu=" = "-mcpu=cortex-m7" ∧
    createPrefixWhenNoneExists "-mcpu=cortex-m7" "-mcpu=" = "-mcpu=cortex-m7" ∧
    createPrefixWhenNoneExists "" "-mcpu=" = "" := by
  have h1 := (createPrefixWhenNoneExists_spec "cortex-m7" "-mcpu=").2.2.1
    (by decide) (by decide)
  have h2 := (createPrefixWhenNoneExists_spec "-mcpu=cortex-m7" "-mcpu=").2.1
    (by decide) (by decide)
  have h3 := (createPrefixWhenNoneExists_spec "" "-mcpu=").1 rfl
  refine ⟨?_, h2, h3⟩
  rw [h1]
  decide

end Stm32
